import Mathlib

set_option maxHeartbeats 1000000

/-!
Verification development for the `xcode_assistant.py` issue detector,
fix synthesizer and applier.

Text is modelled as `List Char`.  The python string operations used by the
source are embedded explicitly: `pyReadlines` models `file.readlines()`
(keeping line endings), `pySplitlines` models `str.splitlines()` (dropping
them), `pyStrip` models `str.strip()`, and `replaceAll` models
`str.replace`.  Each regular expression appearing in the source is compiled
by hand into a scanner over `List Char`; the doc comment of every scanner
states the pattern it implements and the reasoning used to resolve the
regex engine's leftmost / greedy / lazy semantics into recursive code.

Detection functions scan per physical line (with its trailing newline
kept, exactly the slices `re.finditer` visits), which coincides with
scanning the whole content for the patterns involved: none of them can
span two physical lines (their `.` atoms do not match a newline and the
single `\s` atom of the `\.duration\s` rule can only consume the
terminating newline of the line the match starts in).
-/

/-- Whitespace as recognised by python's `str.strip` and `re`'s `\s`
(the Latin-1 range; code points above U+00FF do not occur in the inputs
considered here). -/
def pyIsSpace (c : Char) : Bool :=
  c == ' ' || c == '\t' || c == '\n' || c == '\r' || c == '\x0b' || c == '\x0c' ||
  c == '\x1c' || c == '\x1d' || c == '\x1e' || c == '\x1f' || c == '\x85' || c == '\xa0'

/-- `\w` of python's `re` restricted to ASCII: letters, digits and underscore. -/
def isWordChar (c : Char) : Bool :=
  c.isAlphanum || c == '_'

/-- python `str.strip()`: remove leading and trailing whitespace. -/
def pyStrip (s : List Char) : List Char :=
  ((s.dropWhile pyIsSpace).reverse.dropWhile pyIsSpace).reverse

/-- python `file.readlines()`: split after each newline, keeping the
newline at the end of each line; a final fragment without a newline is
kept as a last line. -/
def pyReadlines : List Char → List (List Char)
  | [] => []
  | c :: rest =>
    if c = '\n' then ['\n'] :: pyReadlines rest
    else
      match pyReadlines rest with
      | [] => [[c]]
      | l :: ls => (c :: l) :: ls

/-- python `str.splitlines()` for contents whose only line break is `'\n'`:
split at each newline, dropping the newline characters. -/
def pySplitlines : List Char → List (List Char)
  | [] => []
  | c :: rest =>
    if c = '\n' then [] :: pySplitlines rest
    else
      match pySplitlines rest with
      | [] => [[c]]
      | l :: ls => (c :: l) :: ls

/-- python `pat in s` (substring containment). -/
def containsSub : List Char → List Char → Bool
  | [], pat => pat.isEmpty
  | c :: t, pat => pat.isPrefixOf (c :: t) || containsSub t pat

/-- python `str.replace(pat, rep)` for a non-empty `pat`: replace every
non-overlapping occurrence, scanning left to right.  (For `pat = []` this
is the identity; the source never calls `replace` with an empty pattern.) -/
def replaceAllGo (pat rep : List Char) : List Char → Nat → List Char
  | [], _ => []
  | _ :: t, k + 1 => replaceAllGo pat rep t k
  | c :: t, 0 =>
    if pat ≠ [] ∧ pat.isPrefixOf (c :: t) then
      rep ++ replaceAllGo pat rep t (pat.length - 1)
    else
      c :: replaceAllGo pat rep t 0

def replaceAll (pat rep s : List Char) : List Char :=
  replaceAllGo pat rep s 0

/-- All non-overlapping occurrences of the literal `lit` (a regex with no
metacharacters), in scan order; each match's `group(0)` is `lit` itself. -/
def litScanGo (lit : List Char) : List Char → Nat → List (List Char)
  | [], _ => []
  | _ :: t, k + 1 => litScanGo lit t k
  | c :: t, 0 =>
    if lit ≠ [] ∧ lit.isPrefixOf (c :: t) then
      lit :: litScanGo lit t (lit.length - 1)
    else
      litScanGo lit t 0

def litScan (lit s : List Char) : List (List Char) :=
  litScanGo lit s 0

/-- First occurrence of the literal `sep` reachable without crossing a
newline, returning the (possibly empty) segment before it and the rest
after it.  This is the lazy regex fragment `(.*?)sep` anchored at the
start of the input. -/
def lazySplit0 (sep : List Char) : List Char → Option (List Char × List Char)
  | [] => none
  | c :: t =>
    if sep ≠ [] ∧ sep.isPrefixOf (c :: t) then some ([], (c :: t).drop sep.length)
    else if c = '\n' then none
    else (lazySplit0 sep t).map fun p => (c :: p.1, p.2)

/-- The lazy regex fragment `(.+?)sep` anchored at the start of the input:
like `lazySplit0` but the segment before `sep` must be non-empty.  No
backtracking over the choice of occurrence is needed: if some later
occurrence of `sep` admits a valid (newline-free, non-empty) segment then
the earliest one at distance ≥ 1 does as well. -/
def lazySplit1 (sep : List Char) : List Char → Option (List Char × List Char)
  | [] => none
  | c :: t =>
    if c = '\n' then none
    else (lazySplit0 sep t).map fun p => (c :: p.1, p.2)

theorem lazySplit0_snd_length {sep : List Char} (hs : sep ≠ []) :
    ∀ {u : List Char} {p : List Char × List Char},
      lazySplit0 sep u = some p → p.2.length < u.length := by
  intro u
  induction u with
  | nil => intro p h; simp [lazySplit0] at h
  | cons c t ih =>
    intro p h
    rw [lazySplit0] at h
    by_cases hpre : sep ≠ [] ∧ sep.isPrefixOf (c :: t)
    · rw [if_pos hpre] at h
      cases h
      simp only [List.length_drop]
      exact Nat.sub_lt (Nat.succ_pos _) (List.length_pos.mpr hs)
    · rw [if_neg hpre] at h
      by_cases hnl : c = '\n'
      · rw [if_pos hnl] at h
        exact absurd h (by simp)
      · rw [if_neg hnl] at h
        cases hq : lazySplit0 sep t with
        | none => rw [hq] at h; simp at h
        | some q =>
          rw [hq] at h
          have hp : some ((c :: q.1, q.2) : List Char × List Char) = some p := h
          have hlen := ih hq
          cases Option.some.inj hp
          simpa using Nat.lt_trans hlen (Nat.lt_succ_self _)

theorem lazySplit1_snd_length {sep : List Char} (hs : sep ≠ []) :
    ∀ {u : List Char} {p : List Char × List Char},
      lazySplit1 sep u = some p → p.2.length < u.length := by
  intro u p h
  cases u with
  | nil => simp [lazySplit1] at h
  | cons c t =>
    rw [lazySplit1] at h
    by_cases hnl : c = '\n'
    · rw [if_pos hnl] at h
      exact absurd h (by simp)
    · rw [if_neg hnl] at h
      cases hq : lazySplit0 sep t with
      | none => rw [hq] at h; simp at h
      | some q =>
        rw [hq] at h
        have hp : some ((c :: q.1, q.2) : List Char × List Char) = some p := h
        have hlen := lazySplit0_snd_length hs hq
        cases Option.some.inj hp
        simpa using Nat.lt_trans hlen (Nat.lt_succ_self _)

/-! ### Scanners for the individual regular expressions of the source -/

theorem dropWhile_cons_length_le (c : Char) (t : List Char) (p : Char → Bool)
    (h : p c = true) : ((c :: t).dropWhile p).length ≤ t.length := by
  rw [List.dropWhile_cons_of_pos h]
  exact List.IsSuffix.length_le (List.dropWhile_suffix p)

theorem dropWhile_cons_length_lt (c : Char) (t : List Char)
    (h : isWordChar c = true) :
    ((c :: t).dropWhile isWordChar).length < (c :: t).length := by
  have := dropWhile_cons_length_le c t isWordChar h
  simp only [List.length_cons]
  omega

theorem dropWhile_cons_drop_length_lt (n : Nat) (c : Char) (t : List Char)
    (h : isWordChar c = true) :
    (((c :: t).dropWhile isWordChar).drop n).length < (c :: t).length := by
  have := dropWhile_cons_length_le c t isWordChar h
  simp only [List.length_drop, List.length_cons]
  omega

theorem lazySplit1_dropWhile_drop_lt (sep : List Char) (n : Nat) (c : Char) (t : List Char)
    (p : List Char × List Char) (hs : sep ≠ []) (hw : isWordChar c = true)
    (hp : lazySplit1 sep (((c :: t).dropWhile isWordChar).drop n) = some p) :
    p.2.length < (c :: t).length := by
  have h1 := lazySplit1_snd_length hs hp
  have h2 := dropWhile_cons_length_le c t isWordChar hw
  simp only [List.length_drop, List.length_cons] at h1 ⊢
  omega

/-- Head character of a list satisfies `pyIsSpace` (used for the `\s` atom
following `\.duration` in the detection table). -/
def headIsSpace : List Char → Bool
  | [] => false
  | d :: _ => pyIsSpace d

/-- Detection rule 2 of `check_deprecated_apis`: all non-overlapping matches
of `\.duration\s`, returning each match's `group(0)` (the literal
`.duration` together with the single whitespace character it consumed). -/
def durScanDGo : List Char → Nat → List (List Char)
  | [], _ => []
  | _ :: t, k + 1 => durScanDGo t k
  | c :: t, 0 =>
    if ".duration".toList.isPrefixOf (c :: t) && headIsSpace ((c :: t).drop 9) then
      (".duration".toList ++ ((c :: t).drop 9).take 1) :: durScanDGo t 9
    else
      durScanDGo t 0

def durScanD (s : List Char) : List (List Char) :=
  durScanDGo s 0

/-- The literal `VStack(spacing:` that anchors the structural-idiom rule
`VStack\(spacing:.*\)`. -/
def vsLit : List Char := "VStack(spacing:".toList

/-- Per-line match of `VStack\(spacing:.*\)`: some occurrence of the
literal is followed, on the same line (`.` does not match a newline),
by a closing parenthesis.  Per physical line the rule yields at most one
`finditer` match, because the greedy `.*\)` extends the first match to the
line's last `)`, after which no further `)` is available for a second
match; a line therefore contributes one issue exactly when this predicate
holds. -/
def vstackLineMatch : List Char → Bool
  | [] => false
  | c :: t =>
    (vsLit.isPrefixOf (c :: t) &&
      (((c :: t).drop vsLit.length).takeWhile (fun d => d != '\n')).contains ')')
    || vstackLineMatch t

/-- Consume up to and over the first occurrence of a literal that is
reachable without crossing a newline (the regex fragment `.*lit` where `.`
does not match `'\n'`). -/
def findLitNl (lit : List Char) : List Char → Option (List Char)
  | [] => none
  | c :: t =>
    if lit ≠ [] ∧ lit.isPrefixOf (c :: t) then some ((c :: t).drop lit.length)
    else if c = '\n' then none
    else findLitNl lit t

/-- Tail of the structural-idiom rule `Text\(".*\\\(.*\?.*:.*\).*"\)`
after its `Text("` anchor: the literals `\(`, `?`, `:`, `)` and `")` must
occur in this order with only non-newline characters between them. -/
def textTailMatch (u : List Char) : Bool :=
  (((((findLitNl "\\(".toList u).bind
      (findLitNl ['?'])).bind
      (findLitNl [':'])).bind
      (findLitNl [')'])).bind
      (findLitNl ['"', ')'])).isSome

/-- Per-line match of the `Text("...")` conditional-interpolation rule; as
with `vstackLineMatch`, the greedy tail `.*"\)` makes at most one
`finditer` match per physical line possible. -/
def textLineMatch : List Char → Bool
  | [] => false
  | c :: t =>
    ("Text(\"".toList.isPrefixOf (c :: t) && textTailMatch ((c :: t).drop 6))
    || textLineMatch t

/-- First match of `spacing:\s*(\d+)` in a line, returning the digit group;
`re.search` keeps scanning when an occurrence of `spacing:` is not
followed by optional whitespace and at least one digit. -/
def spacingSearch : List Char → Option (List Char)
  | [] => none
  | c :: t =>
    if "spacing:".toList.isPrefixOf (c :: t) then
      let ds := (((c :: t).drop 8).dropWhile pyIsSpace).takeWhile Char.isDigit
      if ds ≠ [] then some ds else spacingSearch t
    else
      spacingSearch t

/-- The conditional-expression pattern of `fix_build_expression`,
`re.search(r'\\((.+?\?.+?:.+?)\\)', line)`.  Because `\\(` is a literal
backslash followed by a group-opening parenthesis (not an escaped `(`),
the regex matches a backslash, then lazily a segment containing `?`, `:`
and a closing literal backslash; `group(1)` is that segment including the
final backslash.  Within one start position the lazy quantifiers need no
backtracking (a later viable `?` or `:` makes the earlier one viable too);
failures move the scan to the next backslash. -/
def ternTail (u : List Char) : Option (List Char) :=
  (lazySplit1 ['?'] u).bind fun p1 =>
  (lazySplit1 [':'] p1.2).bind fun p2 =>
  (lazySplit1 ['\\'] p2.2).map fun p3 =>
  p1.1 ++ '?' :: p2.1 ++ ':' :: p3.1 ++ ['\\']

def ternScan : List Char → Option (List Char)
  | [] => none
  | c :: t =>
    if c = '\\' then
      match ternTail t with
      | some g => some g
      | none => ternScan t
    else ternScan t

/-! Fix-table scanners of `fix_deprecated_api`.  Each `mI` decides
`re.search(pattern, line)` for the I-th entry of `api_replacements` and
each corresponding `sub` function performs `re.sub(pattern, template,
line)`.  For the patterns starting with `(\w+)`, a match attempt starting
inside a run of word characters succeeds exactly when the attempt at the
start of the run does (both require the same literal directly after the
run), so the scan may skip whole word runs. -/

/-- `re.search(r'AVAsset\(url: (.+?)\)', line)`. -/
def m1 : List Char → Bool
  | [] => false
  | c :: t =>
    ("AVAsset(url: ".toList.isPrefixOf (c :: t) &&
      (lazySplit1 [')'] ((c :: t).drop 13)).isSome)
    || m1 t

/-- `re.sub(r'AVAsset\(url: (.+?)\)', r'AVURLAsset(url: \1)', line)`. -/
def subAVAssetGo : List Char → Nat → List Char
  | [], _ => []
  | _ :: t, k + 1 => subAVAssetGo t k
  | c :: t, 0 =>
    if "AVAsset(url: ".toList.isPrefixOf (c :: t) then
      match lazySplit1 [')'] ((c :: t).drop 13) with
      | some p => "AVURLAsset(url: ".toList ++ p.1 ++ [')'] ++ subAVAssetGo t (13 + p.1.length)
      | none => c :: subAVAssetGo t 0
    else
      c :: subAVAssetGo t 0

def subAVAsset (s : List Char) : List Char :=
  subAVAssetGo s 0

/-- Group of the first match of `(\w+)\.duration` in a line: the maximal
word-character run directly preceding the literal `.duration`. -/
def durGroupGo : List Char → Nat → Option (List Char)
  | [], _ => none
  | _ :: t, k + 1 => durGroupGo t k
  | c :: t, 0 =>
    if isWordChar c then
      if ".duration".toList.isPrefixOf ((c :: t).dropWhile isWordChar) then
        some ((c :: t).takeWhile isWordChar)
      else durGroupGo t (((c :: t).takeWhile isWordChar).length - 1)
    else durGroupGo t 0

def durGroup (s : List Char) : Option (List Char) :=
  durGroupGo s 0

/-- `re.search(r'(\w+)\.duration', line)`. -/
def m2 (s : List Char) : Bool :=
  (durGroup s).isSome

/-- `re.sub(r'(\w+)\.duration', r'try await \1.load(.duration)', line)`. -/
def subDurationGo : List Char → Nat → List Char
  | [], _ => []
  | _ :: t, k + 1 => subDurationGo t k
  | c :: t, 0 =>
    if isWordChar c then
      if ".duration".toList.isPrefixOf ((c :: t).dropWhile isWordChar) then
        "try await ".toList ++ (c :: t).takeWhile isWordChar ++ ".load(.duration)".toList ++
          subDurationGo t (((c :: t).takeWhile isWordChar).length + 8)
      else
        (c :: t).takeWhile isWordChar ++
          subDurationGo t (((c :: t).takeWhile isWordChar).length - 1)
    else
      c :: subDurationGo t 0

def subDuration (s : List Char) : List Char :=
  subDurationGo s 0

/-- `re.search(r'(\w+)\.tracks\(withMediaType: (.+?)\)', line)`. -/
def m3 : List Char → Bool
  | [] => false
  | c :: t =>
    (isWordChar c &&
      (".tracks(withMediaType: ".toList.isPrefixOf ((c :: t).dropWhile isWordChar) &&
        (lazySplit1 [')'] (((c :: t).dropWhile isWordChar).drop 23)).isSome))
    || m3 t

/-- `re.sub(r'(\w+)\.tracks\(withMediaType: (.+?)\)',
r'try await \1.loadTracks(withMediaType: \2)', line)`. -/
def subTracksGo : List Char → Nat → List Char
  | [], _ => []
  | _ :: t, k + 1 => subTracksGo t k
  | c :: t, 0 =>
    if isWordChar c then
      if ".tracks(withMediaType: ".toList.isPrefixOf ((c :: t).dropWhile isWordChar) then
        match lazySplit1 [')'] (((c :: t).dropWhile isWordChar).drop 23) with
        | some p =>
          "try await ".toList ++ (c :: t).takeWhile isWordChar ++
            ".loadTracks(withMediaType: ".toList ++ p.1 ++ [')'] ++
            subTracksGo t (((c :: t).takeWhile isWordChar).length + 23 + p.1.length)
        | none =>
          (c :: t).takeWhile isWordChar ++
            subTracksGo t (((c :: t).takeWhile isWordChar).length - 1)
      else
        (c :: t).takeWhile isWordChar ++
          subTracksGo t (((c :: t).takeWhile isWordChar).length - 1)
    else
      c :: subTracksGo t 0

def subTracks (s : List Char) : List Char :=
  subTracksGo s 0

/-- `re.search(r'(\w+)\.nominalFrameRate', line)`. -/
def m4 : List Char → Bool
  | [] => false
  | c :: t =>
    (isWordChar c && ".nominalFrameRate".toList.isPrefixOf ((c :: t).dropWhile isWordChar))
    || m4 t

/-- `re.sub(r'(\w+)\.nominalFrameRate', r'try await \1.load(.nominalFrameRate)', line)`. -/
def subNominalGo : List Char → Nat → List Char
  | [], _ => []
  | _ :: t, k + 1 => subNominalGo t k
  | c :: t, 0 =>
    if isWordChar c then
      if ".nominalFrameRate".toList.isPrefixOf ((c :: t).dropWhile isWordChar) then
        "try await ".toList ++ (c :: t).takeWhile isWordChar ++
          ".load(.nominalFrameRate)".toList ++
          subNominalGo t (((c :: t).takeWhile isWordChar).length + 16)
      else
        (c :: t).takeWhile isWordChar ++
          subNominalGo t (((c :: t).takeWhile isWordChar).length - 1)
    else
      c :: subNominalGo t 0

def subNominal (s : List Char) : List Char :=
  subNominalGo s 0

/-- `re.search(r'(\w+)\.naturalSize', line)`. -/
def m5 : List Char → Bool
  | [] => false
  | c :: t =>
    (isWordChar c && ".naturalSize".toList.isPrefixOf ((c :: t).dropWhile isWordChar))
    || m5 t

/-- `re.sub(r'(\w+)\.naturalSize', r'try await \1.load(.naturalSize)', line)`. -/
def subNaturalGo : List Char → Nat → List Char
  | [], _ => []
  | _ :: t, k + 1 => subNaturalGo t k
  | c :: t, 0 =>
    if isWordChar c then
      if ".naturalSize".toList.isPrefixOf ((c :: t).dropWhile isWordChar) then
        "try await ".toList ++ (c :: t).takeWhile isWordChar ++
          ".load(.naturalSize)".toList ++
          subNaturalGo t (((c :: t).takeWhile isWordChar).length + 11)
      else
        (c :: t).takeWhile isWordChar ++
          subNaturalGo t (((c :: t).takeWhile isWordChar).length - 1)
    else
      c :: subNaturalGo t 0

def subNatural (s : List Char) : List Char :=
  subNaturalGo s 0

/-- `re.search(r'(\w+)\.copyCGImage\(at: (.+?), actualTime: (.+?)\)', line)`. -/
def m6 : List Char → Bool
  | [] => false
  | c :: t =>
    (isWordChar c &&
      (".copyCGImage(at: ".toList.isPrefixOf ((c :: t).dropWhile isWordChar) &&
        (match lazySplit1 ", actualTime: ".toList (((c :: t).dropWhile isWordChar).drop 17) with
         | some p => (lazySplit1 [')'] p.2).isSome
         | none => false)))
    || m6 t

/-- `re.sub` for the sixth entry: the template
`\1.generateCGImageAsynchronously(for: \2) { cgImage, actualTime, error in`
drops the third captured group. -/
def subCopyGo : List Char → Nat → List Char
  | [], _ => []
  | _ :: t, k + 1 => subCopyGo t k
  | c :: t, 0 =>
    if isWordChar c then
      if ".copyCGImage(at: ".toList.isPrefixOf ((c :: t).dropWhile isWordChar) then
        match lazySplit1 ", actualTime: ".toList (((c :: t).dropWhile isWordChar).drop 17) with
        | some p =>
          match lazySplit1 [')'] p.2 with
          | some q =>
            (c :: t).takeWhile isWordChar ++ ".generateCGImageAsynchronously(for: ".toList ++
              p.1 ++ ") \x7b cgImage, actualTime, error in".toList ++
              subCopyGo t (((c :: t).takeWhile isWordChar).length + 17 + p.1.length + 14 +
                q.1.length)
          | none =>
            (c :: t).takeWhile isWordChar ++
              subCopyGo t (((c :: t).takeWhile isWordChar).length - 1)
        | none =>
          (c :: t).takeWhile isWordChar ++
            subCopyGo t (((c :: t).takeWhile isWordChar).length - 1)
      else
        (c :: t).takeWhile isWordChar ++
          subCopyGo t (((c :: t).takeWhile isWordChar).length - 1)
    else
      c :: subCopyGo t 0

def subCopy (s : List Char) : List Char :=
  subCopyGo s 0

/-- `re.search(r'class\s+(\w+)', line)`, returning group 1 of the first
match.  `\s+` greedily consumes the maximal whitespace run (a shorter run
would leave a whitespace character where `\w` is required), and `(\w+)`
the maximal word run after it. -/
def classMatchLine : List Char → Option (List Char)
  | [] => none
  | c :: t =>
    if "class".toList.isPrefixOf (c :: t) then
      if ((c :: t).drop 5).takeWhile pyIsSpace ≠ [] ∧
          (((c :: t).drop 5).dropWhile pyIsSpace).takeWhile isWordChar ≠ [] then
        some ((((c :: t).drop 5).dropWhile pyIsSpace).takeWhile isWordChar)
      else classMatchLine t
    else
      classMatchLine t

/-- `re.finditer(r'class\s+(\w+)', content)` with the 1-based line number
(count of newlines before the match start, plus one) attached to each
group; since `\s+` may span newlines this scanner works on whole content,
tracking the running line number (a matched region only contains newlines
inside its whitespace run). -/
def classScanGo : List Char → Nat → Nat → List (Nat × List Char)
  | [], _, _ => []
  | _ :: t, ln, k + 1 => classScanGo t ln k
  | c :: t, ln, 0 =>
    if "class".toList.isPrefixOf (c :: t) ∧
        ((c :: t).drop 5).takeWhile pyIsSpace ≠ [] ∧
        (((c :: t).drop 5).dropWhile pyIsSpace).takeWhile isWordChar ≠ [] then
      (ln, (((c :: t).drop 5).dropWhile pyIsSpace).takeWhile isWordChar) ::
        classScanGo t
          (ln + (((c :: t).drop 5).takeWhile pyIsSpace).count '\n')
          (4 + (((c :: t).drop 5).takeWhile pyIsSpace).length +
            ((((c :: t).drop 5).dropWhile pyIsSpace).takeWhile isWordChar).length)
    else
      classScanGo t (if c = '\n' then ln + 1 else ln) 0

def classScan (s : List Char) (ln : Nat) : List (Nat × List Char) :=
  classScanGo s ln 0

/-! ### Data model -/

/-- The issue dictionaries produced by the three check functions
(`file`, `line`, `type`, `message`, `suggestion`). -/
structure Issue where
  file : String
  line : Nat
  type : String
  message : List Char
  suggestion : List Char
deriving DecidableEq, Repr

/-- The fix dictionaries produced by the three fix generators (`file`,
`line`, `original`, `replacement`, `message`); a missing `replacement`
key is modelled as `none`. -/
structure FixRecord where
  file : String
  line : Nat
  original : List Char
  replacement : Option (List Char)
  message : List Char
deriving DecidableEq, Repr

/-! ### Detector (`check_build_expression`, `check_deprecated_apis`,
`check_sendable_conformance`, `analyze_file`)

The two build-expression rules and all seven deprecated-API rules are
scanned per physical line of the content (see the module comment); the
1-based index of the line holding a match's start equals the source's
`content[:match.start()].count('\n') + 1`. -/

def check_build_expression (file : String) (content : List Char) : List Issue :=
  let lines := pyReadlines content
  ((List.range lines.length).filterMap fun k =>
    if vstackLineMatch (lines.getD k []) then
      some { file := file, line := k + 1, type := "buildExpression",
             message := "Potential buildExpression issue with VStack spacing parameter".toList,
             suggestion := "Replace with VStack \x7b\x7d and explicit Spacer().frame(height: X) elements".toList }
    else none)
  ++
  ((List.range lines.length).filterMap fun k =>
    if textLineMatch (lines.getD k []) then
      some { file := file, line := k + 1, type := "buildExpression",
             message := "Potential buildExpression issue with conditional expression in Text interpolation".toList,
             suggestion := "Extract the conditional expression to a separate variable before using in Text".toList }
    else none)

/-- Issues contributed by one entry of the `deprecated_apis` detection
table: one issue per match, in content order, with the matched text in
the message. -/
def depIssues (file : String) (content : List Char)
    (scan : List Char → List (List Char)) (sug : String) : List Issue :=
  let lines := pyReadlines content
  ((List.range lines.length).map fun k =>
    (scan (lines.getD k [])).map fun m =>
      ({ file := file, line := k + 1, type := "deprecated_api",
         message := "Potential deprecated API usage: ".toList ++ m,
         suggestion := "Consider using ".toList ++ sug.toList ++ " instead".toList } : Issue)).flatten

def check_deprecated_apis (file : String) (content : List Char) : List Issue :=
  depIssues file content (litScan "AVAsset(url:".toList) "AVURLAsset(url:" ++
  depIssues file content durScanD "asset.load(.duration)" ++
  depIssues file content (litScan ".tracks(withMediaType:".toList) "asset.loadTracks(withMediaType:" ++
  depIssues file content (litScan ".nominalFrameRate".toList) "videoTrack.load(.nominalFrameRate)" ++
  depIssues file content (litScan ".naturalSize".toList) "videoTrack.load(.naturalSize)" ++
  depIssues file content (litScan "copyCGImage(at:".toList) "generateCGImageAsynchronously(for:" ++
  depIssues file content (litScan "init(url:)".toList) "AVURLAsset(url:)"

def check_sendable_conformance (file : String) (content : List Char) : List Issue :=
  (classScan content 1).filterMap fun p =>
    if (containsSub content "Task".toList || containsSub content "async".toList) &&
        (!containsSub content ": Sendable".toList &&
         !containsSub content "@unchecked Sendable".toList) then
      some { file := file, line := p.1, type := "sendable_conformance",
             message := "Class ".toList ++ p.2 ++
               " might need Sendable conformance for use in async contexts".toList,
             suggestion := "Add \": @unchecked Sendable\" to class definition or make class thread-safe".toList }
    else none

def analyze_file (file : String) (content : List Char) : List Issue :=
  check_build_expression file content ++
  check_deprecated_apis file content ++
  check_sendable_conformance file content

/-! ### Fix synthesizer (`fix_build_expression`, `fix_deprecated_api`,
`fix_sendable_conformance`, `generate_fix`, `suggest_fixes`)

Each fixer re-reads the file (here: takes the current content as an
argument) and indexes `lines[issue.line - 1]`; python raises `IndexError`
when that index is out of range, modelled as `Except.error "IndexError"`.
(The issues produced by the detector always carry `line ≥ 1`; python's
negative-index behaviour for a hand-built `line = 0` is not modelled.) -/

def fix_build_expression (issue : Issue) (content : List Char) : Except String FixRecord :=
  let lines := pyReadlines content
  if h : issue.line - 1 < lines.length then
    let line := lines.get ⟨issue.line - 1, h⟩
    if containsSub line vsLit then
      let spacing := (spacingSearch line).getD "20".toList
      let indent := line.takeWhile pyIsSpace
      let new_line := indent ++ "VStack \x7b\n".toList ++
        indent ++ "    Spacer().frame(height: ".toList ++ spacing ++ ")\n".toList
      .ok { file := issue.file, line := issue.line - 1 + 1,
            original := pyStrip line, replacement := some (pyStrip new_line),
            message := "Replace VStack(spacing: ".toList ++ spacing ++
              ") with VStack and explicit Spacer".toList }
    else if containsSub line "Text(".toList && containsSub line "\\(".toList &&
        line.contains '?' then
      match ternScan line with
      | some g1 =>
        let modified := replaceAll ("\\(".toList ++ g1 ++ [')']) "\\(computed_value)".toList line
        let new_lines := line.takeWhile pyIsSpace ++ "let computed_value = ".toList ++ g1 ++
          ['\n'] ++ modified
        .ok { file := issue.file, line := issue.line - 1 + 1,
              original := pyStrip line, replacement := some (pyStrip new_lines),
              message := "Extract conditional expression to a variable before using in Text".toList }
      | none =>
        .ok { file := issue.file, line := issue.line - 1 + 1, original := pyStrip line,
              replacement := none,
              message := "Manual fix required for this buildExpression issue".toList }
    else
      .ok { file := issue.file, line := issue.line - 1 + 1, original := pyStrip line,
            replacement := none,
            message := "Manual fix required for this buildExpression issue".toList }
  else .error "IndexError"

def fix_deprecated_api (issue : Issue) (content : List Char) : Except String FixRecord :=
  let lines := pySplitlines content
  if h : issue.line - 1 < lines.length then
    let line := lines.get ⟨issue.line - 1, h⟩
    let mkFix := fun (repl : List Char) =>
      ({ file := issue.file, line := issue.line - 1 + 1,
         original := pyStrip line, replacement := some (pyStrip repl),
         message := "Replace deprecated API with modern equivalent".toList } : FixRecord)
    if m1 line then .ok (mkFix (subAVAsset line))
    else if m2 line then .ok (mkFix (subDuration line))
    else if m3 line then .ok (mkFix (subTracks line))
    else if m4 line then .ok (mkFix (subNominal line))
    else if m5 line then .ok (mkFix (subNatural line))
    else if m6 line then .ok (mkFix (subCopy line))
    else
      .ok { file := issue.file, line := issue.line - 1 + 1, original := pyStrip line,
            replacement := none,
            message := "Manual fix required for this deprecated API".toList }
  else .error "IndexError"

def fix_sendable_conformance (issue : Issue) (content : List Char) : Except String FixRecord :=
  let lines := pyReadlines content
  if h : issue.line - 1 < lines.length then
    let line := lines.get ⟨issue.line - 1, h⟩
    match classMatchLine line with
    | some name =>
      let new_line :=
        if line.contains ':' then replaceAll [':'] ": @unchecked Sendable,".toList line
        else replaceAll name (name ++ ": @unchecked Sendable".toList) line
      .ok { file := issue.file, line := issue.line - 1 + 1, original := pyStrip line,
            replacement := some (pyStrip new_line),
            message := "Add @unchecked Sendable conformance to ".toList ++ name }
    | none =>
      .ok { file := issue.file, line := issue.line - 1 + 1, original := pyStrip line,
            replacement := none,
            message := "Manual fix required for Sendable conformance".toList }
  else .error "IndexError"

/-- `generate_fix` dispatches on the issue's `type`; for an unknown type
the source returns a plain message string instead of a fix dictionary. -/
inductive GenFixResult
  | fix (r : Except String FixRecord)
  | message (s : String)
deriving Repr

def generate_fix (issue : Issue) (content : List Char) : GenFixResult :=
  if issue.type = "buildExpression" then .fix (fix_build_expression issue content)
  else if issue.type = "deprecated_api" then .fix (fix_deprecated_api issue content)
  else if issue.type = "sendable_conformance" then .fix (fix_sendable_conformance issue content)
  else .message ("No automatic fix available for issue type: " ++ issue.type)

/-- `suggest_fixes(issue_index)` for a non-`None` index: the explicit
string `"Invalid issue index"` is returned when the index is out of
bounds for the current issue sequence. -/
inductive SuggestResult
  | one (g : GenFixResult)
  | invalidIndex
deriving Repr

def suggest_fixes_at (issues : List Issue) (content : List Char)
    (issue_index : Nat) : SuggestResult :=
  if h : issue_index < issues.length then
    .one (generate_fix (issues.get ⟨issue_index, h⟩) content)
  else
    .invalidIndex

/-! ### Applier (`apply_fix`) -/

/-- `apply_fix`: re-read the file's lines, overwrite the slot
`lines[fix.line - 1]` with `fix.replacement + '\n'` and write all lines
back (their concatenation).  An out-of-range slot assignment raises
`IndexError` before anything is written, so the file is unchanged in that
case; with no `replacement` key nothing is written either and a
"no automatic fix" status is returned. -/
def apply_fix (fx : FixRecord) (content : List Char) : Except String (List Char × String) :=
  let lines := pyReadlines content
  match fx.replacement with
  | some r =>
    if fx.line - 1 < lines.length then
      .ok ((lines.set (fx.line - 1) (r ++ ['\n'])).flatten,
        "Applied fix to " ++ fx.file ++ " line " ++ toString fx.line)
    else .error "IndexError"
  | none =>
    .ok (content, "No automatic fix available for " ++ fx.file ++ " line " ++ toString fx.line)

/-! ### Concrete scenario inputs -/

/-- The ten-line file of the spec's concrete structural-idiom scenario,
with `    VStack(spacing: 12) {` as its fifth line. -/
def c1Content : List Char :=
  ("// line 1\n// line 2\n// line 3\n// line 4\n    VStack(spacing: 12) \x7b\n// line 6\n// line 7\n// line 8\n// line 9\n// line 10\n").toList

/-- The single structural-idiom issue the detector reports for `c1Content`. -/
def c1Issue : Issue :=
  { file := "test.swift", line := 5, type := "buildExpression",
    message := "Potential buildExpression issue with VStack spacing parameter".toList,
    suggestion := "Replace with VStack \x7b\x7d and explicit Spacer().frame(height: X) elements".toList }

/-- A one-line file whose line matches two deprecated-API detection
patterns (`\.duration\s` and `\.nominalFrameRate`). -/
def c2Content : List Char :=
  ("let a = x.duration ; let b = y.nominalFrameRate\n").toList

/-- The issue the `\.nominalFrameRate` detection rule reports for
`c2Content`. -/
def c2Issue : Issue :=
  { file := "test.swift", line := 1, type := "deprecated_api",
    message := "Potential deprecated API usage: .nominalFrameRate".toList,
    suggestion := "Consider using videoTrack.load(.nominalFrameRate) instead".toList }

/-- The fix synthesized for `c2Issue`: the fix table's first matching
pattern is the `duration` one, so only the `.duration` call is rewritten. -/
def c2FixRecord : FixRecord :=
  { file := "test.swift", line := 1,
    original := "let a = x.duration ; let b = y.nominalFrameRate".toList,
    replacement := some ("let a = try await x.load(.duration) ; let b = y.nominalFrameRate").toList,
    message := "Replace deprecated API with modern equivalent".toList }

/-- `c2Content` after `c2FixRecord` is applied. -/
def c2After : List Char :=
  ("let a = try await x.load(.duration) ; let b = y.nominalFrameRate\n").toList

/-- A two-line file with a class declaration holding two colons (a
conformance-list colon and a `var` type annotation colon) and an async
keyword (`Task`) elsewhere in the file. -/
def c9Content : List Char :=
  ("class Foo: Bar \x7b var x: Int \x7d\nTask \x7b\n").toList

/-- The concurrency-safety issue the detector reports for `c9Content`. -/
def c9Issue : Issue :=
  { file := "test.swift", line := 1, type := "sendable_conformance",
    message := "Class Foo might need Sendable conformance for use in async contexts".toList,
    suggestion := "Add \": @unchecked Sendable\" to class definition or make class thread-safe".toList }

/-- The fix record synthesized for `c1Issue`: note that `new_line.strip()`
removes the first emitted line's indentation. -/
def c1FixRecord : FixRecord :=
  { file := "test.swift", line := 5,
    original := ("VStack(spacing: 12) \x7b").toList,
    replacement := some ("VStack \x7b\n        Spacer().frame(height: 12)").toList,
    message := ("Replace VStack(spacing: 12) with VStack and explicit Spacer").toList }

/-- `c1Content` after applying `c1FixRecord` (eleven lines). -/
def c1After : List Char :=
  ("// line 1\n// line 2\n// line 3\n// line 4\nVStack \x7b\n        Spacer().frame(height: 12)\n// line 6\n// line 7\n// line 8\n// line 9\n// line 10\n").toList

/-- The issue the `\.duration\s` detection rule reports for `c2Content`
(the first of the two issues detection reports for that line). -/
def c2DurIssue : Issue :=
  { file := "test.swift", line := 1, type := "deprecated_api",
    message := "Potential deprecated API usage: .duration ".toList,
    suggestion := "Consider using asset.load(.duration) instead".toList }

/-! ### Claims -/

/-- C1, counterexample: on the spec's ten-line scenario file, detection
reports exactly the one structural-idiom issue at line 5 and synthesis
yields a two-line replacement — but its first line is `VStack {` without
the original line's four-space indentation (the synthesizer strips the
assembled replacement), not `    VStack {` as the claim states. -/
theorem claim1_counterexample :
    analyze_file "test.swift" c1Content = [c1Issue] ∧
    fix_build_expression c1Issue c1Content = Except.ok c1FixRecord ∧
    c1FixRecord.replacement = some ("VStack \x7b\n        Spacer().frame(height: 12)").toList ∧
    c1FixRecord.replacement ≠ some ("    VStack \x7b\n        Spacer().frame(height: 12)").toList :=
  ⟨by decide, by rfl, by rfl, by decide⟩

/-- C1, amended: in the concrete scenario, detect reports exactly one
structural-idiom issue at line 5; synthesize yields the two-line
replacement `VStack {` (leading whitespace stripped from the first line)
and `        Spacer().frame(height: 12)` (the original indentation plus
four spaces); apply replaces line 5 with those two lines, yielding an
eleven-line file with all other lines unchanged. -/
theorem claim1_theorem :
    analyze_file "test.swift" c1Content = [c1Issue] ∧ c1Issue.line = 5 ∧
    fix_build_expression c1Issue c1Content = Except.ok c1FixRecord ∧
    apply_fix c1FixRecord c1Content = Except.ok (c1After, "Applied fix to test.swift line 5") ∧
    pyReadlines c1After =
      [("// line 1\n").toList, ("// line 2\n").toList, ("// line 3\n").toList,
       ("// line 4\n").toList, ("VStack \x7b\n").toList,
       ("        Spacer().frame(height: 12)\n").toList, ("// line 6\n").toList,
       ("// line 7\n").toList, ("// line 8\n").toList, ("// line 9\n").toList,
       ("// line 10\n").toList] ∧
    (pyReadlines c1After).length = 11 ∧ (pyReadlines c1Content).length = 10 :=
  ⟨by decide, by rfl, by rfl, by rfl, by decide, by rfl, by rfl⟩

/-- A one-line file whose line matches the Text-interpolation detection
pattern `Text\(".*\\\(.*\?.*:.*\).*"\)`. -/
def c2tContent : List Char := ("Text(\"\\(ok ? \"a\" : \"b\")\")\n").toList

/-- The Text-interpolation structural-idiom issue the detector reports
for `c2tContent`. -/
def c2tIssue : Issue :=
  { file := "test.swift", line := 1, type := "buildExpression",
    message := ("Potential buildExpression issue with conditional expression in Text interpolation").toList,
    suggestion := ("Extract the conditional expression to a separate variable before using in Text").toList }

/-- The fix the synthesizer returns for `c2tIssue`: the fixer's ternary
regex `\\((.+?\?.+?:.+?)\\)` demands a literal backslash before the
closing parenthesis, which the line lacks, so no replacement is
produced. -/
def c2tRec : FixRecord :=
  { file := "test.swift", line := 1,
    original := ("Text(\"\\(ok ? \"a\" : \"b\")\")").toList,
    replacement := none,
    message := ("Manual fix required for this buildExpression issue").toList }

/-- C2, counterexample: two failing cases of the claim.  Deprecated-API:
for the one-line file `c2Content`, detection reports an issue for the
`\.nominalFrameRate` pattern at line 1; the synthesized fix rewrites the
line using the fix table's first matching pattern (`(\w+)\.duration`),
which leaves `.nominalFrameRate` in place, and re-running detection on
the applied result re-reports the identical issue (same category,
pattern, and location).  Structural-idiom (Text interpolation): for
`c2tContent` the detector reports a Text-interpolation issue, but the
fixer's ternary regex does not match the detected line, so the
synthesized fix has no replacement, applying it leaves the content
unchanged, and detection re-reports the identical issue. -/
theorem claim2_counterexample :
    (c2Issue ∈ analyze_file "test.swift" c2Content ∧
     fix_deprecated_api c2Issue c2Content = Except.ok c2FixRecord ∧
     apply_fix c2FixRecord c2Content = Except.ok (c2After, "Applied fix to test.swift line 1") ∧
     c2Issue ∈ check_deprecated_apis "test.swift" c2After) ∧
    (check_build_expression "test.swift" c2tContent = [c2tIssue] ∧
     fix_build_expression c2tIssue c2tContent = Except.ok c2tRec ∧
     c2tRec.replacement = none ∧
     apply_fix c2tRec c2tContent =
       Except.ok (c2tContent, "No automatic fix available for test.swift line 1") ∧
     c2tIssue ∈ check_build_expression "test.swift" c2tContent) :=
  ⟨⟨by decide, by rfl, by rfl, by decide⟩,
   ⟨by decide, by rfl, by rfl, by rfl, by decide⟩⟩

/-- C7, counterexample: line 1 of `c2Content` fully matches two
deprecated-API detection patterns (`\.duration\s` and
`\.nominalFrameRate`), and `check_deprecated_apis` reports one issue for
each of them — the later pattern produces an additional `IssueRecord` for
the same line rather than being suppressed by a first-match-wins rule. -/
theorem claim7_counterexample :
    check_deprecated_apis "test.swift" c2Content = [c2DurIssue, c2Issue] ∧
    c2DurIssue.line = 1 ∧ c2Issue.line = 1 ∧ c2DurIssue ≠ c2Issue :=
  ⟨by decide, by rfl, by rfl, by decide⟩

/-- C9, counterexample: for the class-declaration line
`class Foo: Bar { var x: Int }` (async keyword present in the file, no
safety annotation anywhere), the synthesized replacement inserts
`: @unchecked Sendable,` after EVERY colon of the line — also after the
type annotation colon of `var x` — rather than only after the
conformance-list colon as the claim states. -/
theorem claim9_counterexample :
    analyze_file "test.swift" c9Content = [c9Issue] ∧
    (∃ r, fix_sendable_conformance c9Issue c9Content = Except.ok r ∧
      r.replacement =
        some ("class Foo: @unchecked Sendable, Bar \x7b var x: @unchecked Sendable, Int \x7d").toList ∧
      r.replacement ≠
        some ("class Foo: @unchecked Sendable, Bar \x7b var x: Int \x7d").toList) :=
  ⟨by decide, ⟨_, by rfl, by rfl, by decide⟩⟩

/-- C6: requesting a fix for an issue index greater than or equal to the
length of the issue sequence yields the explicit invalid-index outcome of
`suggest_fixes`, not an exception and not a fix record. -/
theorem claim6_theorem (issues : List Issue) (content : List Char) (i : Nat)
    (h : issues.length ≤ i) : suggest_fixes_at issues content i = .invalidIndex := by
  unfold suggest_fixes_at
  rw [dif_neg]
  omega

/-- C6 witness: the invalid-index outcome at a concrete out-of-range index. -/
theorem claim6_witness : suggest_fixes_at [c2DurIssue] c2Content 1 = .invalidIndex :=
  claim6_theorem [c2DurIssue] c2Content 1 (by decide)

/-! ### Structure of `pyReadlines` output (for the applier theorems)

A list of lines is *valid* when every line is non-empty, holds a newline
only as its final character, every line but the last ends with a newline,
and the last may or may not.  `pyReadlines` produces exactly such lists,
and on them flattening and re-splitting are mutually inverse. -/

/-- A non-empty line whose newline, if any, is its last character. -/
def cleanLn (l : List Char) : Prop :=
  l ≠ [] ∧ ∀ c ∈ l.dropLast, c ≠ '\n'

/-- A clean line terminated by a newline. -/
def closedLn (l : List Char) : Prop :=
  cleanLn l ∧ l.getLast? = some '\n'

def validLines : List (List Char) → Prop
  | [] => True
  | [l] => cleanLn l
  | l :: l2 :: rest => closedLn l ∧ validLines (l2 :: rest)

theorem pyReadlines_ne_nil {s : List Char} (h : s ≠ []) : pyReadlines s ≠ [] := by
  cases s with
  | nil => exact absurd rfl h
  | cons c t =>
    rw [pyReadlines]
    split
    · simp
    · split <;> simp

theorem pyReadlines_flatten (s : List Char) : (pyReadlines s).flatten = s := by
  induction s with
  | nil => rfl
  | cons c t ih =>
    rw [pyReadlines]
    by_cases hc : c = '\n'
    · rw [if_pos hc, List.flatten_cons, ih, hc]
      rfl
    · rw [if_neg hc]
      cases hq : pyReadlines t with
      | nil =>
        have : t = [] := by
          by_contra hne
          exact pyReadlines_ne_nil hne hq
        subst this
        simp
      | cons l ls =>
        rw [hq] at ih
        simp only [List.flatten_cons] at ih ⊢
        simp [ih]

theorem cleanLn_cons {c : Char} {l : List Char} (hc : c ≠ '\n') (hl : cleanLn l) :
    cleanLn (c :: l) := by
  obtain ⟨hne, hmem⟩ := hl
  refine ⟨by simp, ?_⟩
  rw [List.dropLast_cons_of_ne_nil hne]
  intro d hd
  rcases List.mem_cons.mp hd with h | h
  · exact h ▸ hc
  · exact hmem d h

theorem closedLn_cons {c : Char} {l : List Char} (hc : c ≠ '\n') (hl : closedLn l) :
    closedLn (c :: l) := by
  obtain ⟨hcl, hlast⟩ := hl
  refine ⟨cleanLn_cons hc hcl, ?_⟩
  cases l with
  | nil => simp at hlast
  | cons d t => rw [List.getLast?_cons_cons]; exact hlast

theorem validLines_cons_head {l : List Char} {l2 : List Char} {rest : List (List Char)}
    (h : validLines (l :: l2 :: rest)) : closedLn l := h.1

theorem validLines_tail {l : List Char} {ls : List (List Char)}
    (h : validLines (l :: ls)) : validLines ls := by
  cases ls with
  | nil => trivial
  | cons l2 rest => exact h.2

theorem validLines_pyReadlines (s : List Char) : validLines (pyReadlines s) := by
  induction s with
  | nil => trivial
  | cons c t ih =>
    rw [pyReadlines]
    by_cases hc : c = '\n'
    · rw [if_pos hc]
      cases hq : pyReadlines t with
      | nil => exact ⟨by simp, by simp⟩
      | cons l ls =>
        rw [hq] at ih
        exact ⟨⟨⟨by simp, by simp⟩, by simp⟩, ih⟩
    · rw [if_neg hc]
      cases hq : pyReadlines t with
      | nil => exact ⟨by simp, by simp [List.dropLast]⟩
      | cons l ls =>
        rw [hq] at ih
        cases ls with
        | nil => exact cleanLn_cons hc ih
        | cons l2 rest => exact ⟨closedLn_cons hc ih.1, ih.2⟩

theorem pyReadlines_clean (s : List Char) (hs : cleanLn s) : pyReadlines s = [s] := by
  induction s with
  | nil => exact absurd rfl hs.1
  | cons c t ih =>
    rw [pyReadlines]
    cases t with
    | nil =>
      by_cases hc : c = '\n'
      · rw [if_pos hc, hc]
        rfl
      · rw [if_neg hc]
        rfl
    | cons d t2 =>
      have hc : c ≠ '\n' := by
        have := hs.2 c (by rw [List.dropLast_cons_of_ne_nil (by simp)]; simp)
        exact this
      have hct : cleanLn (d :: t2) := by
        refine ⟨by simp, ?_⟩
        intro e he
        refine hs.2 e ?_
        rw [List.dropLast_cons_of_ne_nil (by simp)]
        exact List.mem_cons_of_mem c he
      rw [if_neg hc, ih hct]

theorem pyReadlines_closed_append (l b : List Char) (hl : closedLn l) :
    pyReadlines (l ++ b) = l :: pyReadlines b := by
  induction l with
  | nil => exact absurd rfl hl.1.1
  | cons c t ih =>
    cases t with
    | nil =>
      have hc : c = '\n' := by
        have := hl.2
        simp at this
        exact this
      subst hc
      rw [List.cons_append, pyReadlines, if_pos rfl]
      rfl
    | cons d t2 =>
      have hc : c ≠ '\n' := by
        have := hl.1.2 c (by rw [List.dropLast_cons_of_ne_nil (by simp)]; simp)
        exact this
      have hct : closedLn (d :: t2) := by
        refine ⟨⟨by simp, ?_⟩, ?_⟩
        · intro e he
          refine hl.1.2 e ?_
          rw [List.dropLast_cons_of_ne_nil (by simp)]
          exact List.mem_cons_of_mem c he
        · have := hl.2
          rw [List.getLast?_cons_cons] at this
          exact this
      rw [List.cons_append, pyReadlines, if_neg hc, ih hct]

theorem pyReadlines_flatten_of_valid (ls : List (List Char)) (h : validLines ls) :
    pyReadlines ls.flatten = ls := by
  induction ls with
  | nil => rfl
  | cons l rest ih =>
    cases rest with
    | nil =>
      simp only [List.flatten_cons, List.flatten_nil, List.append_nil]
      exact pyReadlines_clean l h
    | cons l2 rest2 =>
      rw [List.flatten_cons, pyReadlines_closed_append l _ h.1, ih h.2]

theorem validLines_of_closed (ls : List (List Char)) (h : ∀ l ∈ ls, closedLn l) :
    validLines ls := by
  induction ls with
  | nil => trivial
  | cons l rest ih =>
    cases rest with
    | nil => exact (h l (by simp)).1
    | cons l2 rest2 =>
      exact ⟨h l (by simp), ih fun x hx => h x (List.mem_cons_of_mem l hx)⟩

theorem validLines_drop (ls : List (List Char)) (h : validLines ls) (n : Nat) :
    validLines (ls.drop n) := by
  induction n generalizing ls with
  | zero => exact h
  | succ n ih =>
    cases ls with
    | nil => trivial
    | cons l rest => exact ih rest (validLines_tail h)

theorem validLines_take_closed (ls : List (List Char)) (h : validLines ls)
    (k : Nat) (hk : k < ls.length) : ∀ l ∈ ls.take k, closedLn l := by
  induction k generalizing ls with
  | zero => simp
  | succ k ih =>
    cases ls with
    | nil => simp at hk
    | cons l rest =>
      cases rest with
      | nil => simp at hk
      | cons l2 rest2 =>
        intro x hx
        simp only [List.take_succ_cons] at hx
        rcases List.mem_cons.mp hx with hx | hx
        · exact hx ▸ h.1
        · exact ih (l2 :: rest2) h.2 (by simp at hk ⊢; omega) x hx

theorem flatten_closed_getLast (ls : List (List Char)) (h : ∀ l ∈ ls, closedLn l)
    (hne : ls ≠ []) : (ls.flatten).getLast? = some '\n' := by
  induction ls with
  | nil => exact absurd rfl hne
  | cons l rest ih =>
    cases rest with
    | nil =>
      simp only [List.flatten_cons, List.flatten_nil, List.append_nil]
      exact (h l (by simp)).2
    | cons l2 rest2 =>
      rw [List.flatten_cons, List.getLast?_append,
        ih (fun x hx => h x (List.mem_cons_of_mem l hx)) (by simp)]
      rfl

theorem pyReadlines_append (a b : List Char) (ha : a.getLast? = some '\n') :
    pyReadlines (a ++ b) = pyReadlines a ++ pyReadlines b := by
  induction a with
  | nil => simp at ha
  | cons c t ih =>
    cases t with
    | nil =>
      have hc : c = '\n' := by simpa using ha
      subst hc
      rw [List.cons_append, pyReadlines, if_pos rfl]
      rfl
    | cons d t2 =>
      rw [List.getLast?_cons_cons] at ha
      have iht := ih ha
      by_cases hc : c = '\n'
      · subst hc
        show ['\n'] :: pyReadlines ((d :: t2) ++ b) =
          (['\n'] :: pyReadlines (d :: t2)) ++ pyReadlines b
        rw [iht]
        rfl
      · rw [List.cons_append, pyReadlines, if_neg hc, iht]
        have hne := pyReadlines_ne_nil (s := d :: t2) (by simp)
        cases hq : pyReadlines (d :: t2) with
        | nil => exact absurd hq hne
        | cons l ls =>
          conv_rhs => rw [pyReadlines, if_neg hc, hq]
          rfl

theorem pyReadlines_length_of_closed (s : List Char) (hs : s.getLast? = some '\n') :
    (pyReadlines s).length = s.count '\n' := by
  induction s with
  | nil => simp at hs
  | cons c t ih =>
    cases t with
    | nil =>
      have hc : c = '\n' := by simpa using hs
      subst hc
      rfl
    | cons d t2 =>
      rw [List.getLast?_cons_cons] at hs
      have iht := ih hs
      by_cases hc : c = '\n'
      · subst hc
        rw [pyReadlines, if_pos rfl, List.length_cons, iht]
        simp [List.count_cons]
      · rw [pyReadlines, if_neg hc]
        have hne := pyReadlines_ne_nil (s := d :: t2) (by simp)
        cases hq : pyReadlines (d :: t2) with
        | nil => exact absurd hq hne
        | cons l ls =>
          rw [hq] at iht
          simp only [List.length_cons] at iht ⊢
          rw [List.count_cons]
          simp [hc, iht]

/-- Splitting the applier's write: replacing slot `n` of a file's line
list by `r + '\n'` and flattening yields a content whose lines are the
first `n` original lines, the physical lines of `r + '\n'`, and the
original lines after slot `n`. -/
theorem pyReadlines_set_flatten (content r : List Char) (n : Nat)
    (hn : n < (pyReadlines content).length) :
    pyReadlines (((pyReadlines content).set n (r ++ ['\n'])).flatten) =
      (pyReadlines content).take n ++ pyReadlines (r ++ ['\n']) ++
        (pyReadlines content).drop (n + 1) := by
  have hset : (pyReadlines content).set n (r ++ ['\n']) =
      (pyReadlines content).take n ++ (r ++ ['\n']) ::
        (pyReadlines content).drop (n + 1) := by
    rw [List.set_eq_take_append_cons_drop, if_pos hn]
  have hmidlast : (r ++ ['\n']).getLast? = some '\n' := List.getLast?_concat r
  have hvalid := validLines_pyReadlines content
  have hdropvalid := validLines_drop _ hvalid (n + 1)
  have hdropround : pyReadlines ((pyReadlines content).drop (n + 1)).flatten =
      (pyReadlines content).drop (n + 1) :=
    pyReadlines_flatten_of_valid _ hdropvalid
  have htail : pyReadlines ((r ++ ['\n']) ++ ((pyReadlines content).drop (n + 1)).flatten) =
      pyReadlines (r ++ ['\n']) ++ (pyReadlines content).drop (n + 1) := by
    rw [pyReadlines_append _ _ hmidlast, hdropround]
  rw [hset, List.flatten_append, List.flatten_cons]
  cases hT : (pyReadlines content).take n with
  | nil =>
    rw [List.flatten_nil, List.nil_append, List.nil_append, htail]
  | cons T0 Trest =>
    have hclosed : ∀ l ∈ (pyReadlines content).take n, closedLn l :=
      validLines_take_closed _ hvalid _ hn
    have hTlast : ((pyReadlines content).take n).flatten.getLast? = some '\n' :=
      flatten_closed_getLast _ hclosed (by rw [hT]; simp)
    have hTvalid : validLines ((pyReadlines content).take n) :=
      validLines_of_closed _ hclosed
    have hTround : pyReadlines ((pyReadlines content).take n).flatten =
        (pyReadlines content).take n :=
      pyReadlines_flatten_of_valid _ hTvalid
    rw [← hT, pyReadlines_append _ _ hTlast, hTround, htail, List.append_assoc]

/-- C4: applying a `FixRecord` with a replacement to line `N` (1-based, in
range) of an `M`-line file succeeds, and the resulting file's lines are
the first `N-1` original lines unchanged, then the physical lines of
`replacement + '\n'` (`K = count of embedded newlines + 1` of them, so a
single-line replacement keeps the file at `M` lines), then the remaining
`M - N` original lines unchanged; the total is `M + K - 1`. -/
theorem claim4_theorem (content : List Char) (fx : FixRecord) (r : List Char)
    (hr : fx.replacement = some r) (hge : 1 ≤ fx.line)
    (hle : fx.line ≤ (pyReadlines content).length) :
    ∃ out status, apply_fix fx content = Except.ok (out, status) ∧
      pyReadlines out =
        (pyReadlines content).take (fx.line - 1) ++ pyReadlines (r ++ ['\n']) ++
          (pyReadlines content).drop fx.line ∧
      (pyReadlines (r ++ ['\n'])).length = r.count '\n' + 1 ∧
      (pyReadlines out).length = (pyReadlines content).length + r.count '\n' := by
  have hlt : fx.line - 1 < (pyReadlines content).length := by omega
  refine ⟨((pyReadlines content).set (fx.line - 1) (r ++ ['\n'])).flatten,
    "Applied fix to " ++ fx.file ++ " line " ++ toString fx.line, ?_, ?_⟩
  · simp only [apply_fix, hr]
    rw [if_pos hlt]
  · have hmain := pyReadlines_set_flatten content r (fx.line - 1) hlt
    have hdropline : fx.line - 1 + 1 = fx.line := by omega
    rw [hdropline] at hmain
    have hmidlen : (pyReadlines (r ++ ['\n'])).length = r.count '\n' + 1 := by
      rw [pyReadlines_length_of_closed _ (List.getLast?_concat r)]
      simp
    refine ⟨hmain, hmidlen, ?_⟩
    rw [hmain]
    simp only [List.length_append, List.length_take, List.length_drop, hmidlen]
    omega

/-- C4 witness: a two-physical-line replacement applied to line 2 of a
three-line file yields a four-line file with the frame intact. -/
def c4wFixRecord : FixRecord :=
  { file := "test.swift", line := 2, original := ("b").toList,
    replacement := some ("X\nY").toList, message := [] }

theorem claim4_witness :
    ∃ out status,
      apply_fix c4wFixRecord ("a\nb\nc\n").toList =
        Except.ok (out, status) ∧
      pyReadlines out =
        (pyReadlines ("a\nb\nc\n").toList).take 1 ++ pyReadlines (("X\nY").toList ++ ['\n']) ++
          (pyReadlines ("a\nb\nc\n").toList).drop 2 ∧
      (pyReadlines (("X\nY").toList ++ ['\n'])).length = ("X\nY").toList.count '\n' + 1 ∧
      (pyReadlines out).length = (pyReadlines ("a\nb\nc\n").toList).length +
        ("X\nY").toList.count '\n' :=
  claim4_theorem ("a\nb\nc\n").toList c4wFixRecord ("X\nY").toList rfl (by decide) (by decide)

/-- C5: applying a `FixRecord` with a replacement whose line number exceeds
the current number of lines fails with an `IndexError` for that single
operation; the error is raised by the slot assignment before the file is
opened for writing, so nothing is written and no other line is touched. -/
theorem claim5_theorem (content : List Char) (fx : FixRecord) (r : List Char)
    (hr : fx.replacement = some r) (h : (pyReadlines content).length < fx.line) :
    apply_fix fx content = Except.error "IndexError" := by
  simp only [apply_fix, hr]
  rw [if_neg]
  omega

def c5wFixRecord : FixRecord :=
  { file := "test.swift", line := 4, original := [],
    replacement := some ("X").toList, message := [] }

/-- C5 witness: applying a fix targeting line 4 of a two-line file fails. -/
theorem claim5_witness :
    apply_fix c5wFixRecord ("a\nb\n").toList = Except.error "IndexError" :=
  claim5_theorem ("a\nb\n").toList c5wFixRecord ("X").toList rfl (by decide)

/-! ### `pyStrip` facts (for the synthesizer output theorems) -/

theorem pyStrip_prefix_dropWhile (s : List Char) :
    pyStrip s <+: s.dropWhile pyIsSpace :=
  List.rdropWhile_prefix pyIsSpace (s.dropWhile pyIsSpace)

theorem pyStrip_head_not_space (s : List Char) :
    ∀ c ∈ (pyStrip s).head?, pyIsSpace c = false := by
  obtain ⟨t, ht⟩ := pyStrip_prefix_dropWhile s
  cases hP : pyStrip s with
  | nil => simp
  | cons a P2 =>
    intro c hc
    have hac : a = c := by
      simpa using hc
    rw [hP] at ht
    have hu : s.dropWhile pyIsSpace = a :: (P2 ++ t) := by rw [← ht]; simp
    have hne : s.dropWhile pyIsSpace ≠ [] := by rw [hu]; simp
    have hhead := List.head_dropWhile_not pyIsSpace s (by simpa using hne)
    rw [← hac]
    rw [show (s.dropWhile pyIsSpace).head (by simpa using hne) = a by rw [List.head_eq_iff_head?_eq_some]; rw [hu]; rfl] at hhead
    exact hhead

theorem pyStrip_idem (s : List Char) : pyStrip (pyStrip s) = pyStrip s := by
  have h1 : (pyStrip s).dropWhile pyIsSpace = pyStrip s := by
    cases hP : pyStrip s with
    | nil => rfl
    | cons a P2 =>
      have ha : pyIsSpace a = false := by
        have := pyStrip_head_not_space s a (by rw [hP]; rfl)
        exact this
      rw [List.dropWhile_cons_of_neg (by simp [ha])]
  have h2 : pyStrip (pyStrip s) =
      List.rdropWhile pyIsSpace ((pyStrip s).dropWhile pyIsSpace) := rfl
  have h3 : pyStrip s = List.rdropWhile pyIsSpace (s.dropWhile pyIsSpace) := rfl
  rw [h2, h1, h3, List.rdropWhile_idempotent]

/-- C10: every `FixRecord` any of the three synthesizers returns has its
`original` field stripped of leading and trailing whitespace, and its
`replacement`, when present, likewise; consequently the first character
(hence the first physical line) of a written replacement never carries
leading whitespace, regardless of the original line's indentation. -/
theorem claim10_theorem (issue : Issue) (content : List Char) (rec : FixRecord)
    (h : fix_build_expression issue content = Except.ok rec ∨
         fix_deprecated_api issue content = Except.ok rec ∨
         fix_sendable_conformance issue content = Except.ok rec) :
    pyStrip rec.original = rec.original ∧
    ∀ r, rec.replacement = some r →
      pyStrip r = r ∧ ∀ c ∈ r.head?, pyIsSpace c = false := by
  rcases h with h | h | h
  · simp only [fix_build_expression] at h
    repeat' split at h
    all_goals cases h
    all_goals refine ⟨pyStrip_idem _, ?_⟩
    all_goals intro r hr
    all_goals simp at hr
    all_goals subst hr
    all_goals exact ⟨pyStrip_idem _, pyStrip_head_not_space _⟩
  · simp only [fix_deprecated_api] at h
    repeat' split at h
    all_goals cases h
    all_goals refine ⟨pyStrip_idem _, ?_⟩
    all_goals intro r hr
    all_goals simp at hr
    all_goals subst hr
    all_goals exact ⟨pyStrip_idem _, pyStrip_head_not_space _⟩
  · simp only [fix_sendable_conformance] at h
    repeat' split at h
    all_goals cases h
    all_goals refine ⟨pyStrip_idem _, ?_⟩
    all_goals intro r hr
    all_goals simp at hr
    all_goals subst hr
    all_goals exact ⟨pyStrip_idem _, pyStrip_head_not_space _⟩

/-- C10 witness: the stripping property at the concrete structural-idiom
fix of the scenario file. -/
theorem claim10_witness :
    pyStrip c1FixRecord.original = c1FixRecord.original ∧
    ∀ r, c1FixRecord.replacement = some r →
      pyStrip r = r ∧ ∀ c ∈ r.head?, pyIsSpace c = false :=
  claim10_theorem c1Issue c1Content c1FixRecord (Or.inl (by rfl))

/-- A one-line file and an issue whose recorded line number (2) exceeds
the file's current line count. -/
def c3Content : List Char := ("let x = 1\n").toList

def c3Issue : Issue :=
  { file := "test.swift", line := 2, type := "buildExpression",
    message := [], suggestion := [] }

/-- A one-line file whose line matches NO structural-idiom detection rule
(`VStack\(spacing:.*\)` needs a closing parenthesis) but passes the
structural fixer's own weaker substring test `'VStack(spacing:' in line`. -/
def c3sContent : List Char := ("VStack(spacing: 5\n").toList

def c3sIssue : Issue :=
  { file := "test.swift", line := 1, type := "buildExpression",
    message := [], suggestion := [] }

/-- The fix the structural synthesizer returns for the stale line of
`c3sContent`: a full replacement, not a manual-fix record. -/
def c3sRec : FixRecord :=
  { file := "test.swift", line := 1,
    original := ("VStack(spacing: 5").toList,
    replacement := some ("VStack \x7b\n    Spacer().frame(height: 5)").toList,
    message := ("Replace VStack(spacing: 5) with VStack and explicit Spacer").toList }

/-- C3, counterexample: two failing cases of the claim.  Out of range:
when the recorded line number exceeds the number of lines the file now
has, every one of the three synthesizers raises an `IndexError` (the
unguarded `lines[line_num]` indexing) instead of returning a
manual-fix-required `FixRecord`.  Stale but transformed: the line of
`c3sContent` matches no detection rule of the structural-idiom category,
yet the synthesizer — which re-checks only its own weaker substring test —
returns a full replacement instead of degrading to a manual fix. -/
theorem claim3_counterexample :
    (fix_build_expression c3Issue c3Content = Except.error "IndexError" ∧
     fix_deprecated_api c3Issue c3Content = Except.error "IndexError" ∧
     fix_sendable_conformance c3Issue c3Content = Except.error "IndexError") ∧
    (check_build_expression "test.swift" c3sContent = [] ∧
     fix_build_expression c3sIssue c3sContent = Except.ok c3sRec ∧
     c3sRec.replacement ≠ none) :=
  ⟨⟨by rfl, by rfl, by rfl⟩, ⟨by decide, by rfl, by decide⟩⟩

/-- C3, amended: the synthesizers never re-check the originating
detection rule; each guards only with its own weaker test — the substring
`VStack(spacing:` and the ternary regex for the structural-idiom fixer,
the six fix-table regexes for the deprecated-API fixer, the
`class\s+(\w+)` regex for the concurrency-safety fixer.  When the
recorded line number is in range and the line fails the relevant fixer's
own tests, synthesis returns a `FixRecord` without a `replacement` and
raises no exception.  A stale in-range line that passes a fixer test is
transformed (last conjunct: the substring test alone forces a
replacement, even when no detection rule matches — see the
counterexample), and a recorded line number beyond the current line
count raises an `IndexError` instead of returning a record. -/
theorem claim3_theorem (issue : Issue) (content : List Char) :
    ((pyReadlines content).length < issue.line →
      fix_build_expression issue content = Except.error "IndexError" ∧
      fix_sendable_conformance issue content = Except.error "IndexError") ∧
    ((pySplitlines content).length < issue.line →
      fix_deprecated_api issue content = Except.error "IndexError") ∧
    (∀ h : issue.line - 1 < (pyReadlines content).length,
      containsSub ((pyReadlines content).get ⟨issue.line - 1, h⟩) vsLit = false →
      ternScan ((pyReadlines content).get ⟨issue.line - 1, h⟩) = none →
      ∃ rec, fix_build_expression issue content = Except.ok rec ∧
        rec.replacement = none) ∧
    (∀ h : issue.line - 1 < (pySplitlines content).length,
      m1 ((pySplitlines content).get ⟨issue.line - 1, h⟩) = false →
      m2 ((pySplitlines content).get ⟨issue.line - 1, h⟩) = false →
      m3 ((pySplitlines content).get ⟨issue.line - 1, h⟩) = false →
      m4 ((pySplitlines content).get ⟨issue.line - 1, h⟩) = false →
      m5 ((pySplitlines content).get ⟨issue.line - 1, h⟩) = false →
      m6 ((pySplitlines content).get ⟨issue.line - 1, h⟩) = false →
      ∃ rec, fix_deprecated_api issue content = Except.ok rec ∧
        rec.replacement = none) ∧
    (∀ h : issue.line - 1 < (pyReadlines content).length,
      classMatchLine ((pyReadlines content).get ⟨issue.line - 1, h⟩) = none →
      ∃ rec, fix_sendable_conformance issue content = Except.ok rec ∧
        rec.replacement = none) ∧
    (∀ h : issue.line - 1 < (pyReadlines content).length,
      containsSub ((pyReadlines content).get ⟨issue.line - 1, h⟩) vsLit = true →
      ∃ rec r, fix_build_expression issue content = Except.ok rec ∧
        rec.replacement = some r) := by
  refine ⟨?_, ?_, ?_, ?_, ?_, ?_⟩
  · intro hoor
    constructor
    · simp only [fix_build_expression]
      rw [dif_neg]
      omega
    · simp only [fix_sendable_conformance]
      rw [dif_neg]
      omega
  · intro hoor
    simp only [fix_deprecated_api]
    rw [dif_neg]
    omega
  · intro h hvs htern
    simp only [fix_build_expression]
    rw [dif_pos h, if_neg (by simpa using hvs)]
    split
    · rw [htern]
      exact ⟨_, rfl, rfl⟩
    · exact ⟨_, rfl, rfl⟩
  · intro h h1 h2 h3 h4 h5 h6
    simp only [fix_deprecated_api]
    rw [dif_pos h, if_neg (by simpa using h1), if_neg (by simpa using h2),
      if_neg (by simpa using h3), if_neg (by simpa using h4), if_neg (by simpa using h5),
      if_neg (by simpa using h6)]
    exact ⟨_, rfl, rfl⟩
  · intro h hcls
    simp only [fix_sendable_conformance]
    rw [dif_pos h, hcls]
    exact ⟨_, rfl, rfl⟩
  · intro h hvs
    simp only [fix_build_expression]
    rw [dif_pos h, if_pos (by simpa using hvs)]
    exact ⟨_, _, rfl, rfl⟩

def c3wIssue : Issue :=
  { file := "test.swift", line := 1, type := "buildExpression",
    message := [], suggestion := [] }

/-- C3 witness: the manual-fix outcomes and the out-of-range error at a
concrete one-line file, and the forced replacement on the stale line that
still passes the structural fixer's substring test. -/
theorem claim3_witness :
    (∃ rec, fix_build_expression c3wIssue ("hello\n").toList = Except.ok rec ∧
      rec.replacement = none) ∧
    (∃ rec, fix_deprecated_api c3wIssue ("hello\n").toList = Except.ok rec ∧
      rec.replacement = none) ∧
    (∃ rec, fix_sendable_conformance c3wIssue ("hello\n").toList = Except.ok rec ∧
      rec.replacement = none) ∧
    fix_build_expression c3Issue ("hello\n").toList = Except.error "IndexError" ∧
    (∃ rec r, fix_build_expression c3sIssue c3sContent = Except.ok rec ∧
      rec.replacement = some r) :=
  ⟨(claim3_theorem c3wIssue ("hello\n").toList).2.2.1 (by decide) (by decide) (by decide),
   (claim3_theorem c3wIssue ("hello\n").toList).2.2.2.1 (by decide) (by decide) (by decide)
     (by decide) (by decide) (by decide) (by decide),
   (claim3_theorem c3wIssue ("hello\n").toList).2.2.2.2.1 (by decide) (by decide),
   ((claim3_theorem c3Issue ("hello\n").toList).1 (by decide)).1,
   (claim3_theorem c3sIssue c3sContent).2.2.2.2.2 (by decide) (by decide)⟩

/-! ### Infix preservation lemmas (for the capture-group theorems) -/

theorem infix_append_left (l1 : List Char) {l l2 : List Char} (h : l <:+: l2) :
    l <:+: l1 ++ l2 := by
  obtain ⟨u, v, rfl⟩ := h
  exact ⟨l1 ++ u, v, by simp⟩

theorem infix_dropWhile (p : Char → Bool) (g : List Char) {s : List Char}
    (hg : ∀ c ∈ g.head?, p c = false) (hne : g ≠ []) (h : g <:+: s) :
    g <:+: s.dropWhile p := by
  induction s with
  | nil =>
    rw [List.infix_nil] at h
    exact absurd h hne
  | cons c t ih =>
    rcases List.infix_cons_iff.mp h with hpre | hinf
    · by_cases hc : p c
      · cases g with
        | nil => exact absurd rfl hne
        | cons a g2 =>
          obtain ⟨u, hu⟩ := hpre
          have hac : a = c := by
            have := congrArg (fun l => l.head?) hu
            simpa using this
          exact absurd hc (by rw [← hac, hg a (by simp)]; simp)
      · rw [List.dropWhile_cons_of_neg hc]
        exact hpre.isInfix
    · by_cases hc : p c
      · rw [List.dropWhile_cons_of_pos hc]
        exact ih hinf
      · rw [List.dropWhile_cons_of_neg hc]
        exact h

theorem infix_pyStrip (g : List Char) {s : List Char}
    (hghead : ∀ c ∈ g.head?, pyIsSpace c = false)
    (hglast : ∀ c ∈ g.getLast?, pyIsSpace c = false)
    (hne : g ≠ []) (h : g <:+: s) :
    g <:+: pyStrip s := by
  have h1 : g <:+: s.dropWhile pyIsSpace := infix_dropWhile pyIsSpace g hghead hne h
  have h2 : g.reverse <:+: (s.dropWhile pyIsSpace).reverse := List.reverse_infix.mpr h1
  have h3 : g.reverse <:+: (s.dropWhile pyIsSpace).reverse.dropWhile pyIsSpace :=
    infix_dropWhile pyIsSpace g.reverse (fun c hc => hglast c (by simpa using hc))
      (by simpa using hne) h2
  have h4 := List.reverse_infix.mpr h3
  simpa using h4

theorem wordChar_not_space (c : Char) (h : isWordChar c = true) : pyIsSpace c = false := by
  by_contra hc
  rw [Bool.not_eq_false] at hc
  simp only [pyIsSpace, Bool.or_eq_true, beq_iff_eq] at hc
  rcases hc with ((((((((((hc | hc) | hc) | hc) | hc) | hc) | hc) | hc) | hc) | hc) | hc) | hc <;>
    subst hc <;> exact absurd h (by decide)

/-! ### Coherence of the duration fix pattern's group and substitution -/

theorem durGroupGo_word (s : List Char) :
    ∀ (k : Nat) (g : List Char), durGroupGo s k = some g →
      g ≠ [] ∧ ∀ c ∈ g, isWordChar c = true := by
  induction s with
  | nil => intro k g h; simp [durGroupGo] at h
  | cons c t ih =>
    intro k g h
    cases k with
    | succ k => exact ih k g h
    | zero =>
      rw [durGroupGo] at h
      by_cases hw : isWordChar c
      · rw [if_pos hw] at h
        by_cases hpre : ".duration".toList.isPrefixOf ((c :: t).dropWhile isWordChar)
        · rw [if_pos hpre] at h
          cases Option.some.inj h
          rw [List.takeWhile_cons_of_pos hw]
          refine ⟨by simp, ?_⟩
          intro d hd
          rcases List.mem_cons.mp hd with hd | hd
          · exact hd ▸ hw
          · exact List.mem_takeWhile_imp hd
        · rw [if_neg hpre] at h
          exact ih _ g h
      · rw [if_neg hw] at h
        exact ih 0 g h

theorem durGroupGo_subDurationGo (s : List Char) :
    ∀ (k : Nat) (g : List Char), durGroupGo s k = some g →
      (g ++ (".load(.duration)").toList) <:+: subDurationGo s k := by
  induction s with
  | nil => intro k g h; simp [durGroupGo] at h
  | cons c t ih =>
    intro k g h
    cases k with
    | succ k =>
      have := ih k g h
      rw [show subDurationGo (c :: t) (k + 1) = subDurationGo t k from rfl]
      exact this
    | zero =>
      rw [durGroupGo] at h
      by_cases hw : isWordChar c
      · by_cases hpre : ".duration".toList.isPrefixOf ((c :: t).dropWhile isWordChar)
        · rw [if_pos hw, if_pos hpre] at h
          cases Option.some.inj h
          rw [show subDurationGo (c :: t) 0 =
            "try await ".toList ++ (c :: t).takeWhile isWordChar ++ ".load(.duration)".toList ++
              subDurationGo t (((c :: t).takeWhile isWordChar).length + 8) from by
            rw [subDurationGo, if_pos hw, if_pos hpre]]
          exact ⟨"try await ".toList, subDurationGo t (((c :: t).takeWhile isWordChar).length + 8),
            by simp⟩
        · rw [if_pos hw, if_neg hpre] at h
          have hrec := ih _ g h
          rw [show subDurationGo (c :: t) 0 =
            (c :: t).takeWhile isWordChar ++
              subDurationGo t (((c :: t).takeWhile isWordChar).length - 1) from by
            rw [subDurationGo, if_pos hw, if_neg hpre]]
          exact infix_append_left _ hrec
      · rw [if_neg hw] at h
        have hrec := ih 0 g h
        rw [show subDurationGo (c :: t) 0 = c :: subDurationGo t 0 from by
          rw [subDurationGo, if_neg hw]]
        exact List.infix_cons hrec

theorem durTok_not_space : ∀ c ∈ (".load(.duration)").toList, pyIsSpace c = false := by
  decide

/-- C8, amended: for a line whose first matching fix-table pattern is the
duration one — `(\w+)\.duration` with capture group `G`, the spec's
example — the synthesized `FixRecord` carries a replacement that contains
`G` unchanged (as a contiguous substring, still followed by the call) and
contains the modern-API token `load(.duration)`.  The original claim's
quantification over every fix pattern with a capture group fails: the
`copyCGImage` substitution template drops its third capture group
entirely (see the counterexample). -/
theorem claim8_theorem (issue : Issue) (content : List Char) (g : List Char)
    (h : issue.line - 1 < (pySplitlines content).length)
    (hm1 : m1 ((pySplitlines content).get ⟨issue.line - 1, h⟩) = false)
    (hg : durGroup ((pySplitlines content).get ⟨issue.line - 1, h⟩) = some g) :
    ∃ rec r, fix_deprecated_api issue content = Except.ok rec ∧
      rec.replacement = some r ∧
      g <:+: r ∧ ("load(.duration)").toList <:+: r := by
  have hm2 : m2 ((pySplitlines content).get ⟨issue.line - 1, h⟩) = true := by
    simp only [m2]
    rw [hg]
    rfl
  have key : fix_deprecated_api issue content = Except.ok
      { file := issue.file, line := issue.line - 1 + 1,
        original := pyStrip ((pySplitlines content).get ⟨issue.line - 1, h⟩),
        replacement :=
          some (pyStrip (subDuration ((pySplitlines content).get ⟨issue.line - 1, h⟩))),
        message := "Replace deprecated API with modern equivalent".toList } := by
    simp only [fix_deprecated_api]
    rw [dif_pos h, if_neg (by simpa using hm1), if_pos (by simpa using hm2)]
  refine ⟨_, pyStrip (subDuration ((pySplitlines content).get ⟨issue.line - 1, h⟩)),
    key, rfl, ?_, ?_⟩
  all_goals
    have hword := durGroupGo_word ((pySplitlines content).get ⟨issue.line - 1, h⟩) 0 g hg
    have hinf := durGroupGo_subDurationGo ((pySplitlines content).get ⟨issue.line - 1, h⟩) 0 g hg
    have hchars : ∀ c ∈ g ++ (".load(.duration)").toList, pyIsSpace c = false := by
      intro c hc
      rcases List.mem_append.mp hc with hc | hc
      · exact wordChar_not_space c (hword.2 c hc)
      · exact durTok_not_space c hc
    have hstr : (g ++ (".load(.duration)").toList) <:+:
        pyStrip (subDuration ((pySplitlines content).get ⟨issue.line - 1, h⟩)) :=
      infix_pyStrip _ (fun c hc => hchars c (List.mem_of_mem_head? hc))
        (fun c hc => hchars c (List.mem_of_mem_getLast? hc)) (by simp) hinf
  · exact ((List.prefix_append g _).isInfix).trans hstr
  · refine (List.IsInfix.trans ?_ hstr)
    have hdot : (".load(.duration)").toList = '.' :: ("load(.duration)").toList := rfl
    rw [hdot]
    exact infix_append_left g (List.infix_cons (List.infix_refl _))

/-- C8 witness: the concrete line `let d = asset.duration` (the spec's
scenario), whose capture group is `asset`. -/
theorem claim8_witness :
    ∃ rec r, fix_deprecated_api
        { file := "test.swift", line := 1, type := "deprecated_api",
          message := [], suggestion := [] } ("let d = asset.duration\n").toList =
        Except.ok rec ∧
      rec.replacement = some r ∧
      ("asset").toList <:+: r ∧ ("load(.duration)").toList <:+: r :=
  claim8_theorem _ ("let d = asset.duration\n").toList ("asset").toList
    (by decide) (by decide) (by decide)

/-- A one-line file matching the `copyCGImage` fix pattern
`(\w+)\.copyCGImage\(at: (.+?), actualTime: (.+?)\)` with third capture
group `qq77`. -/
def c8Content : List Char :=
  ("let x = gen.copyCGImage(at: t, actualTime: qq77)\n").toList

def c8Issue : Issue :=
  { file := "test.swift", line := 1, type := "deprecated_api",
    message := [], suggestion := [] }

/-- The synthesized replacement for `c8Content`: the substitution
template keeps groups 1 and 2 but drops group 3. -/
def c8Repl : List Char :=
  ("let x = gen.generateCGImageAsynchronously(for: t) \x7b cgImage, actualTime, error in").toList

def c8Rec : FixRecord :=
  { file := "test.swift", line := 1,
    original := ("let x = gen.copyCGImage(at: t, actualTime: qq77)").toList,
    replacement := some c8Repl,
    message := ("Replace deprecated API with modern equivalent").toList }

/-- C8, counterexample: the line of `c8Content` matches the deprecated-API
fix pattern `(\w+)\.copyCGImage\(at: (.+?), actualTime: (.+?)\)`, whose
third capture group is `qq77`; the synthesized replacement does NOT
contain that capture group — the substitution template
`\1.generateCGImageAsynchronously(for: \2) { cgImage, actualTime, error in`
drops it — refuting the claim's quantification over every fix pattern
with a capture group. -/
theorem claim8_counterexample :
    m6 ((pySplitlines c8Content).get ⟨0, by decide⟩) = true ∧
    containsSub ((pySplitlines c8Content).get ⟨0, by decide⟩) ("qq77").toList = true ∧
    fix_deprecated_api c8Issue c8Content = Except.ok c8Rec ∧
    c8Rec.replacement = some c8Repl ∧
    containsSub c8Repl ("qq77").toList = false :=
  ⟨by decide, by decide, by rfl, by rfl, by decide⟩

/-! ### The deprecated-API catalog as tables (for the C7 theorems) -/

/-- The detection catalog `deprecated_apis` of `check_deprecated_apis`:
each entry's per-line match scanner paired with its suggested
replacement string. -/
def depDetectTable : List ((List Char → List (List Char)) × String) :=
  [(litScan ("AVAsset(url:").toList, "AVURLAsset(url:"),
   (durScanD, "asset.load(.duration)"),
   (litScan (".tracks(withMediaType:").toList, "asset.loadTracks(withMediaType:"),
   (litScan (".nominalFrameRate").toList, "videoTrack.load(.nominalFrameRate)"),
   (litScan (".naturalSize").toList, "videoTrack.load(.naturalSize)"),
   (litScan ("copyCGImage(at:").toList, "generateCGImageAsynchronously(for:"),
   (litScan ("init(url:)").toList, "AVURLAsset(url:)")]

/-- The fix table `api_replacements` of `fix_deprecated_api`: each
entry's match test paired with its substitution. -/
def depFixTable : List ((List Char → Bool) × (List Char → List Char)) :=
  [(m1, subAVAsset), (m2, subDuration), (m3, subTracks),
   (m4, subNominal), (m5, subNatural), (m6, subCopy)]

/-- The suggestion text carried by an issue of the detection entry with
replacement string `sug`. -/
def sugText (sug : String) : List Char :=
  ("Consider using ").toList ++ sug.toList ++ (" instead").toList

theorem sum_map_range_single (F : Nat → Nat) (k : Nat) :
    ∀ n, k < n → ((List.range n).map fun j => if j = k then F j else 0).sum = F k := by
  intro n
  induction n with
  | zero => intro h; omega
  | succ n ih =>
    intro h
    rw [List.range_succ, List.map_append, List.sum_append]
    by_cases hkn : k < n
    · rw [ih hkn]
      have hne : n ≠ k := by omega
      simp [hne]
    · have hk : k = n := by omega
      subst hk
      have h0 : ((List.range k).map fun j => if j = k then F j else 0).sum = 0 := by
        apply List.sum_eq_zero
        intro x hx
        simp only [List.mem_map, List.mem_range] at hx
        obtain ⟨j, hj, rfl⟩ := hx
        have hne : j ≠ k := by omega
        simp [hne]
      rw [h0]
      simp

/-- Within one detection entry's issue list, the issues at line `k + 1`
carrying that entry's suggestion are exactly one per match of the
entry's pattern on physical line `k`. -/
theorem depIssues_countP_self (file : String) (content : List Char)
    (scan : List Char → List (List Char)) (sug : String) (k : Nat)
    (hk : k < (pyReadlines content).length) :
    ((depIssues file content scan sug).countP fun i =>
      decide (i.line = k + 1 ∧ i.suggestion = sugText sug)) =
    (scan ((pyReadlines content).getD k [])).length := by
  simp only [depIssues, List.countP_flatten, List.map_map]
  rw [List.map_congr_left (g := fun j =>
    if j = k then (scan ((pyReadlines content).getD j [])).length else 0) ?_]
  · exact sum_map_range_single (fun j => (scan ((pyReadlines content).getD j [])).length)
      k _ hk
  · intro q hq
    simp only [Function.comp_apply, List.countP_map]
    by_cases hq' : q = k
    · subst hq'
      rw [if_pos rfl]
      rw [show (scan ((pyReadlines content).getD q [])).length =
        ((scan ((pyReadlines content).getD q [])).map fun m =>
          ({ file := file, line := q + 1, type := "deprecated_api",
             message := ("Potential deprecated API usage: ").toList ++ m,
             suggestion := ("Consider using ").toList ++ sug.toList ++
               (" instead").toList } : Issue)).length from (List.length_map _ _).symm]
      rw [← List.countP_map]
      exact List.countP_eq_length.mpr fun a ha => by
        obtain ⟨m, hm, rfl⟩ := List.mem_map.mp ha
        simp [sugText]
    · rw [if_neg hq']
      exact List.countP_eq_zero.mpr fun m hm => by
        simp only [Function.comp_apply, decide_eq_true_eq, not_and]
        intro h1
        omega

/-- A detection entry contributes no issue carrying another entry's
suggestion text. -/
theorem depIssues_countP_other (file : String) (content : List Char)
    (scan : List Char → List (List Char)) (sug : String) (t : List Char) (k : Nat)
    (hne : t ≠ sugText sug) :
    ((depIssues file content scan sug).countP fun i =>
      decide (i.line = k + 1 ∧ i.suggestion = t)) = 0 := by
  rw [List.countP_eq_zero]
  intro a ha
  simp only [depIssues, List.mem_flatten, List.mem_map] at ha
  obtain ⟨l, ⟨q, hq, rfl⟩, hal⟩ := ha
  obtain ⟨m, hm, rfl⟩ := List.mem_map.mp hal
  simp only [decide_eq_true_eq, not_and]
  intro _
  exact fun hsug => hne hsug.symm

/-- C7, amended: in detection the catalog is an ordered list but every
fully-matching pattern contributes — for every entry of the detection
table and every physical line, the issues carrying that entry's
suggestion at that line number exactly one per match of the entry's
pattern on the line, whatever the other entries match.  First-match-wins
holds on the fix side: `fix_deprecated_api` equals the lookup of the
FIRST fix-table entry whose pattern matches the line (`List.find?` over
the ordered table), so later matching entries contribute nothing. -/
theorem claim7_theorem (file : String) (content : List Char) :
    (∀ e ∈ depDetectTable, ∀ k, k < (pyReadlines content).length →
      ((check_deprecated_apis file content).countP fun i =>
        decide (i.line = k + 1 ∧ i.suggestion = sugText e.2)) =
      (e.1 ((pyReadlines content).getD k [])).length) ∧
    (∀ issue : Issue, ∀ h : issue.line - 1 < (pySplitlines content).length,
      fix_deprecated_api issue content =
        match depFixTable.find?
            (fun e => e.1 ((pySplitlines content).get ⟨issue.line - 1, h⟩)) with
        | some e => Except.ok
            { file := issue.file, line := issue.line - 1 + 1,
              original := pyStrip ((pySplitlines content).get ⟨issue.line - 1, h⟩),
              replacement :=
                some (pyStrip (e.2 ((pySplitlines content).get ⟨issue.line - 1, h⟩))),
              message := ("Replace deprecated API with modern equivalent").toList }
        | none => Except.ok
            { file := issue.file, line := issue.line - 1 + 1,
              original := pyStrip ((pySplitlines content).get ⟨issue.line - 1, h⟩),
              replacement := none,
              message := ("Manual fix required for this deprecated API").toList }) := by
  constructor
  · intro e he k hk
    simp only [depDetectTable, List.mem_cons, List.not_mem_nil, or_false] at he
    rcases he with rfl | rfl | rfl | rfl | rfl | rfl | rfl
    · show ((check_deprecated_apis file content).countP fun i =>
          decide (i.line = k + 1 ∧ i.suggestion = sugText "AVURLAsset(url:")) =
        (litScan ("AVAsset(url:").toList ((pyReadlines content).getD k [])).length
      simp only [check_deprecated_apis, List.countP_append]
      rw [depIssues_countP_self file content (litScan ("AVAsset(url:").toList)
          "AVURLAsset(url:" k hk,
        depIssues_countP_other file content durScanD "asset.load(.duration)" _ k (by decide),
        depIssues_countP_other file content (litScan (".tracks(withMediaType:").toList)
          "asset.loadTracks(withMediaType:" _ k (by decide),
        depIssues_countP_other file content (litScan (".nominalFrameRate").toList)
          "videoTrack.load(.nominalFrameRate)" _ k (by decide),
        depIssues_countP_other file content (litScan (".naturalSize").toList)
          "videoTrack.load(.naturalSize)" _ k (by decide),
        depIssues_countP_other file content (litScan ("copyCGImage(at:").toList)
          "generateCGImageAsynchronously(for:" _ k (by decide),
        depIssues_countP_other file content (litScan ("init(url:)").toList)
          "AVURLAsset(url:)" _ k (by decide)]
      omega
    · show ((check_deprecated_apis file content).countP fun i =>
          decide (i.line = k + 1 ∧ i.suggestion = sugText "asset.load(.duration)")) =
        (durScanD ((pyReadlines content).getD k [])).length
      simp only [check_deprecated_apis, List.countP_append]
      rw [depIssues_countP_other file content (litScan ("AVAsset(url:").toList)
          "AVURLAsset(url:" _ k (by decide),
        depIssues_countP_self file content durScanD "asset.load(.duration)" k hk,
        depIssues_countP_other file content (litScan (".tracks(withMediaType:").toList)
          "asset.loadTracks(withMediaType:" _ k (by decide),
        depIssues_countP_other file content (litScan (".nominalFrameRate").toList)
          "videoTrack.load(.nominalFrameRate)" _ k (by decide),
        depIssues_countP_other file content (litScan (".naturalSize").toList)
          "videoTrack.load(.naturalSize)" _ k (by decide),
        depIssues_countP_other file content (litScan ("copyCGImage(at:").toList)
          "generateCGImageAsynchronously(for:" _ k (by decide),
        depIssues_countP_other file content (litScan ("init(url:)").toList)
          "AVURLAsset(url:)" _ k (by decide)]
      omega
    · show ((check_deprecated_apis file content).countP fun i =>
          decide (i.line = k + 1 ∧
            i.suggestion = sugText "asset.loadTracks(withMediaType:")) =
        (litScan (".tracks(withMediaType:").toList ((pyReadlines content).getD k [])).length
      simp only [check_deprecated_apis, List.countP_append]
      rw [depIssues_countP_other file content (litScan ("AVAsset(url:").toList)
          "AVURLAsset(url:" _ k (by decide),
        depIssues_countP_other file content durScanD "asset.load(.duration)" _ k (by decide),
        depIssues_countP_self file content (litScan (".tracks(withMediaType:").toList)
          "asset.loadTracks(withMediaType:" k hk,
        depIssues_countP_other file content (litScan (".nominalFrameRate").toList)
          "videoTrack.load(.nominalFrameRate)" _ k (by decide),
        depIssues_countP_other file content (litScan (".naturalSize").toList)
          "videoTrack.load(.naturalSize)" _ k (by decide),
        depIssues_countP_other file content (litScan ("copyCGImage(at:").toList)
          "generateCGImageAsynchronously(for:" _ k (by decide),
        depIssues_countP_other file content (litScan ("init(url:)").toList)
          "AVURLAsset(url:)" _ k (by decide)]
      omega
    · show ((check_deprecated_apis file content).countP fun i =>
          decide (i.line = k + 1 ∧
            i.suggestion = sugText "videoTrack.load(.nominalFrameRate)")) =
        (litScan (".nominalFrameRate").toList ((pyReadlines content).getD k [])).length
      simp only [check_deprecated_apis, List.countP_append]
      rw [depIssues_countP_other file content (litScan ("AVAsset(url:").toList)
          "AVURLAsset(url:" _ k (by decide),
        depIssues_countP_other file content durScanD "asset.load(.duration)" _ k (by decide),
        depIssues_countP_other file content (litScan (".tracks(withMediaType:").toList)
          "asset.loadTracks(withMediaType:" _ k (by decide),
        depIssues_countP_self file content (litScan (".nominalFrameRate").toList)
          "videoTrack.load(.nominalFrameRate)" k hk,
        depIssues_countP_other file content (litScan (".naturalSize").toList)
          "videoTrack.load(.naturalSize)" _ k (by decide),
        depIssues_countP_other file content (litScan ("copyCGImage(at:").toList)
          "generateCGImageAsynchronously(for:" _ k (by decide),
        depIssues_countP_other file content (litScan ("init(url:)").toList)
          "AVURLAsset(url:)" _ k (by decide)]
      omega
    · show ((check_deprecated_apis file content).countP fun i =>
          decide (i.line = k + 1 ∧
            i.suggestion = sugText "videoTrack.load(.naturalSize)")) =
        (litScan (".naturalSize").toList ((pyReadlines content).getD k [])).length
      simp only [check_deprecated_apis, List.countP_append]
      rw [depIssues_countP_other file content (litScan ("AVAsset(url:").toList)
          "AVURLAsset(url:" _ k (by decide),
        depIssues_countP_other file content durScanD "asset.load(.duration)" _ k (by decide),
        depIssues_countP_other file content (litScan (".tracks(withMediaType:").toList)
          "asset.loadTracks(withMediaType:" _ k (by decide),
        depIssues_countP_other file content (litScan (".nominalFrameRate").toList)
          "videoTrack.load(.nominalFrameRate)" _ k (by decide),
        depIssues_countP_self file content (litScan (".naturalSize").toList)
          "videoTrack.load(.naturalSize)" k hk,
        depIssues_countP_other file content (litScan ("copyCGImage(at:").toList)
          "generateCGImageAsynchronously(for:" _ k (by decide),
        depIssues_countP_other file content (litScan ("init(url:)").toList)
          "AVURLAsset(url:)" _ k (by decide)]
      omega
    · show ((check_deprecated_apis file content).countP fun i =>
          decide (i.line = k + 1 ∧
            i.suggestion = sugText "generateCGImageAsynchronously(for:")) =
        (litScan ("copyCGImage(at:").toList ((pyReadlines content).getD k [])).length
      simp only [check_deprecated_apis, List.countP_append]
      rw [depIssues_countP_other file content (litScan ("AVAsset(url:").toList)
          "AVURLAsset(url:" _ k (by decide),
        depIssues_countP_other file content durScanD "asset.load(.duration)" _ k (by decide),
        depIssues_countP_other file content (litScan (".tracks(withMediaType:").toList)
          "asset.loadTracks(withMediaType:" _ k (by decide),
        depIssues_countP_other file content (litScan (".nominalFrameRate").toList)
          "videoTrack.load(.nominalFrameRate)" _ k (by decide),
        depIssues_countP_other file content (litScan (".naturalSize").toList)
          "videoTrack.load(.naturalSize)" _ k (by decide),
        depIssues_countP_self file content (litScan ("copyCGImage(at:").toList)
          "generateCGImageAsynchronously(for:" k hk,
        depIssues_countP_other file content (litScan ("init(url:)").toList)
          "AVURLAsset(url:)" _ k (by decide)]
      omega
    · show ((check_deprecated_apis file content).countP fun i =>
          decide (i.line = k + 1 ∧ i.suggestion = sugText "AVURLAsset(url:)")) =
        (litScan ("init(url:)").toList ((pyReadlines content).getD k [])).length
      simp only [check_deprecated_apis, List.countP_append]
      rw [depIssues_countP_other file content (litScan ("AVAsset(url:").toList)
          "AVURLAsset(url:" _ k (by decide),
        depIssues_countP_other file content durScanD "asset.load(.duration)" _ k (by decide),
        depIssues_countP_other file content (litScan (".tracks(withMediaType:").toList)
          "asset.loadTracks(withMediaType:" _ k (by decide),
        depIssues_countP_other file content (litScan (".nominalFrameRate").toList)
          "videoTrack.load(.nominalFrameRate)" _ k (by decide),
        depIssues_countP_other file content (litScan (".naturalSize").toList)
          "videoTrack.load(.naturalSize)" _ k (by decide),
        depIssues_countP_other file content (litScan ("copyCGImage(at:").toList)
          "generateCGImageAsynchronously(for:" _ k (by decide),
        depIssues_countP_self file content (litScan ("init(url:)").toList)
          "AVURLAsset(url:)" k hk]
      omega
  · intro issue h
    simp only [fix_deprecated_api]
    rw [dif_pos h]
    set L := (pySplitlines content).get ⟨issue.line - 1, h⟩ with hL
    cases hm1 : m1 L with
    | true => simp [depFixTable, List.find?_cons, hm1]
    | false =>
      cases hm2 : m2 L with
      | true => simp [depFixTable, List.find?_cons, hm1, hm2]
      | false =>
        cases hm3 : m3 L with
        | true => simp [depFixTable, List.find?_cons, hm1, hm2, hm3]
        | false =>
          cases hm4 : m4 L with
          | true => simp [depFixTable, List.find?_cons, hm1, hm2, hm3, hm4]
          | false =>
            cases hm5 : m5 L with
            | true => simp [depFixTable, List.find?_cons, hm1, hm2, hm3, hm4, hm5]
            | false =>
              cases hm6 : m6 L with
              | true =>
                simp [depFixTable, List.find?_cons, hm1, hm2, hm3, hm4, hm5, hm6]
              | false =>
                simp [depFixTable, List.find?_cons, hm1, hm2, hm3, hm4, hm5, hm6]

/-- C7 witness: the one-line file matching both the duration and the
nominalFrameRate patterns: detection counts exactly one issue for the
duration entry, and the fix-side first-match lookup rewrites only the
duration call. -/
theorem claim7_witness :
    ((check_deprecated_apis "test.swift" c2Content).countP fun i =>
      decide (i.line = 0 + 1 ∧ i.suggestion = sugText "asset.load(.duration)")) = 1 ∧
    fix_deprecated_api c2Issue c2Content = Except.ok
      { file := "test.swift", line := 1,
        original := pyStrip ((pySplitlines c2Content).get ⟨0, by decide⟩),
        replacement :=
          some (pyStrip (subDuration ((pySplitlines c2Content).get ⟨0, by decide⟩))),
        message := ("Replace deprecated API with modern equivalent").toList } :=
  ⟨(( claim7_theorem "test.swift" c2Content).1 (durScanD, "asset.load(.duration)")
      (List.mem_cons_of_mem _ (List.mem_cons_self _ _)) 0 (by decide)).trans (by decide),
   (( claim7_theorem "test.swift" c2Content).2 c2Issue (by decide)).trans (by rfl)⟩

/-! ### Support lemmas for the concurrency-safety fix theorem -/

theorem containsSub_iff (s pat : List Char) : containsSub s pat = true ↔ pat <:+: s := by
  induction s with
  | nil =>
    simp only [containsSub, List.isEmpty_iff, List.infix_nil]
  | cons c t ih =>
    simp only [containsSub, Bool.or_eq_true, List.isPrefixOf_iff_prefix, ih,
      List.infix_cons_iff]

theorem infix_of_mem_pyReadlines {l content : List Char}
    (h : l ∈ pyReadlines content) : l <:+: content := by
  obtain ⟨u, v, huv⟩ := List.append_of_mem h
  have : (pyReadlines content).flatten = u.flatten ++ (l ++ v.flatten) := by
    rw [huv]; simp
  rw [pyReadlines_flatten] at this
  exact ⟨u.flatten, v.flatten, by rw [List.append_assoc]; exact this.symm⟩

theorem classMatchLine_infix (line : List Char) :
    ∀ name, classMatchLine line = some name → name <:+: line := by
  induction line with
  | nil => intro name h; simp [classMatchLine] at h
  | cons c t ih =>
    intro name h
    rw [classMatchLine] at h
    by_cases hcl : "class".toList.isPrefixOf (c :: t)
    · rw [if_pos hcl] at h
      by_cases hok : ((c :: t).drop 5).takeWhile pyIsSpace ≠ [] ∧
          (((c :: t).drop 5).dropWhile pyIsSpace).takeWhile isWordChar ≠ []
      · rw [if_pos hok] at h
        cases Option.some.inj h
        have h1 : (((c :: t).drop 5).dropWhile pyIsSpace).takeWhile isWordChar <+:
            ((c :: t).drop 5).dropWhile pyIsSpace := List.takeWhile_prefix _
        have h2 : ((c :: t).drop 5).dropWhile pyIsSpace <:+ (c :: t).drop 5 :=
          List.dropWhile_suffix _
        have h3 : (c :: t).drop 5 <:+ c :: t := List.drop_suffix _ _
        exact h1.isInfix.trans (h2.isInfix.trans h3.isInfix)
      · rw [if_neg hok] at h
        exact List.infix_cons (ih name h)
    · rw [if_neg hcl] at h
      exact List.infix_cons (ih name h)

theorem classMatchLine_word (line : List Char) :
    ∀ name, classMatchLine line = some name →
      name ≠ [] ∧ ∀ c ∈ name, isWordChar c = true := by
  induction line with
  | nil => intro name h; simp [classMatchLine] at h
  | cons c t ih =>
    intro name h
    rw [classMatchLine] at h
    by_cases hcl : "class".toList.isPrefixOf (c :: t)
    · rw [if_pos hcl] at h
      by_cases hok : ((c :: t).drop 5).takeWhile pyIsSpace ≠ [] ∧
          (((c :: t).drop 5).dropWhile pyIsSpace).takeWhile isWordChar ≠ []
      · rw [if_pos hok] at h
        cases Option.some.inj h
        exact ⟨hok.2, fun c hc => List.mem_takeWhile_imp hc⟩
      · rw [if_neg hok] at h
        exact ih name h
    · rw [if_neg hcl] at h
      exact ih name h

/-- If the pattern occurs in the input, `str.replace` emits the
replacement at least once. -/
theorem replaceAllGo_rep_infix (pat rep : List Char) (hp : pat ≠ []) :
    ∀ s : List Char, pat <:+: s → rep <:+: replaceAllGo pat rep s 0 := by
  intro s
  induction s with
  | nil =>
    intro h
    rw [List.infix_nil] at h
    exact absurd h hp
  | cons c t ih =>
    intro h
    rw [replaceAllGo]
    by_cases hpre : pat ≠ [] ∧ pat.isPrefixOf (c :: t)
    · rw [if_pos hpre]
      exact (List.prefix_append rep _).isInfix
    · rw [if_neg hpre]
      rcases List.infix_cons_iff.mp h with hx | hx
      · exact absurd ⟨hp, List.isPrefixOf_iff_prefix.mpr hx⟩ hpre
      · exact List.infix_cons (ih hx)

theorem prefix_replaceAllGo_single (a : Char) (rep : List Char) :
    ∀ (s g : List Char), (∀ c ∈ g, c ≠ a) → g <+: s →
      g <+: replaceAllGo [a] rep s 0 := by
  intro s
  induction s with
  | nil =>
    intro g hg h
    rw [List.prefix_nil] at h
    simp [h]
  | cons c t ih =>
    intro g hg h
    rw [replaceAllGo]
    cases g with
    | nil => simp
    | cons b g2 =>
      rcases List.prefix_cons_iff.mp h with h0 | ⟨g3, hg3, hpre⟩
      · exact absurd h0 (by simp)
      · have hbc : b = c := by
          have := congrArg (fun l => l.head?) hg3
          simpa using this
        have hg23 : g2 = g3 := by
          have := congrArg List.tail hg3
          simpa using this
        subst hg23
        have hca : ¬ c = a := by rw [← hbc]; exact hg b (by simp)
        have hcond : ¬(([a] : List Char) ≠ [] ∧ ([a] : List Char).isPrefixOf (c :: t) = true) := by
          rintro ⟨-, hpf⟩
          rw [List.isPrefixOf_iff_prefix] at hpf
          rcases List.prefix_cons_iff.mp hpf with h1 | ⟨t2, ht2, -⟩
          · simp at h1
          · have hac : a = c := by
              have := congrArg (fun l => l.head?) ht2
              simpa using this
            exact hca hac.symm
        rw [if_neg hcond]
        subst hbc
        obtain ⟨u, hu⟩ := ih g2 (fun d hd => hg d (List.mem_cons_of_mem b hd)) hpre
        exact ⟨u, by simp [← hu]⟩

theorem infix_replaceAllGo_single (a : Char) (rep : List Char) :
    ∀ (s g : List Char), (∀ c ∈ g, c ≠ a) → g <:+: s →
      g <:+: replaceAllGo [a] rep s 0 := by
  intro s
  induction s with
  | nil =>
    intro g hg h
    rw [List.infix_nil] at h
    simp [h]
  | cons c t ih =>
    intro g hg h
    rcases List.infix_cons_iff.mp h with hpre | hinf
    · exact (prefix_replaceAllGo_single a rep (c :: t) g hg hpre).isInfix
    · rw [replaceAllGo]
      by_cases hpc : ([a] : List Char) ≠ [] ∧ ([a] : List Char).isPrefixOf (c :: t)
      · rw [if_pos hpc]
        exact infix_append_left rep (ih g hg hinf)
      · rw [if_neg hpc]
        exact List.infix_cons (ih g hg hinf)

theorem wordChar_ne_colon (c : Char) (h : isWordChar c = true) : c ≠ ':' := by
  intro hc
  subst hc
  exact absurd h (by decide)

theorem annot_head_last :
    (∀ c ∈ (("@unchecked Sendable").toList).head?, pyIsSpace c = false) ∧
    (∀ c ∈ (("@unchecked Sendable").toList).getLast?, pyIsSpace c = false) := by
  decide

/-- Facts established by the colon branch of `fix_sendable_conformance`:
the type name survives (it holds no colon), and both the raw annotation
and the full inserted token appear in the stripped replacement. -/
theorem sendable_colon_case (line name : List Char)
    (hword : name ≠ [] ∧ ∀ c ∈ name, isWordChar c = true)
    (hnameinf : name <:+: line)
    (hcolon : line.contains ':' = true) :
    name <:+: pyStrip (replaceAll [':'] ((": @unchecked Sendable,").toList) line) ∧
    ("@unchecked Sendable").toList <:+:
      pyStrip (replaceAll [':'] ((": @unchecked Sendable,").toList) line) ∧
    (": @unchecked Sendable,").toList <:+:
      pyStrip (replaceAll [':'] ((": @unchecked Sendable,").toList) line) := by
  have hcmem : (':' : Char) ∈ line := by
    simpa using hcolon
  obtain ⟨u, v, huv⟩ := List.append_of_mem hcmem
  have hcolinf : ([':'] : List Char) <:+: line := ⟨u, v, by rw [huv]; simp⟩
  have htokinf : (": @unchecked Sendable,").toList <:+:
      replaceAllGo [':'] ((": @unchecked Sendable,").toList) line 0 :=
    replaceAllGo_rep_infix [':'] _ (by simp) line hcolinf
  have hnamego : name <:+: replaceAllGo [':'] ((": @unchecked Sendable,").toList) line 0 :=
    infix_replaceAllGo_single ':' _ line name
      (fun c hc => wordChar_ne_colon c (hword.2 c hc)) hnameinf
  have hnamehead : ∀ c ∈ name.head?, pyIsSpace c = false :=
    fun c hc => wordChar_not_space c (hword.2 c (List.mem_of_mem_head? hc))
  have hnamelast : ∀ c ∈ name.getLast?, pyIsSpace c = false :=
    fun c hc => wordChar_not_space c (hword.2 c (List.mem_of_mem_getLast? hc))
  refine ⟨infix_pyStrip name hnamehead hnamelast hword.1 hnamego, ?_, ?_⟩
  · have hsub : ("@unchecked Sendable").toList <:+: (": @unchecked Sendable,").toList :=
      ⟨(": ").toList, [','], by decide⟩
    exact infix_pyStrip _ annot_head_last.1 annot_head_last.2 (by decide)
      (hsub.trans htokinf)
  · exact infix_pyStrip _ (by decide) (by decide) (by decide) htokinf

/-- Facts established by the no-colon branch of
`fix_sendable_conformance`: the token `Name: @unchecked Sendable` appears
in the stripped replacement (the annotation directly after the type
name). -/
theorem sendable_nocolon_case (line name : List Char)
    (hword : name ≠ [] ∧ ∀ c ∈ name, isWordChar c = true)
    (hnameinf : name <:+: line) :
    name <:+:
      pyStrip (replaceAll name (name ++ (": @unchecked Sendable").toList) line) ∧
    ("@unchecked Sendable").toList <:+:
      pyStrip (replaceAll name (name ++ (": @unchecked Sendable").toList) line) ∧
    (name ++ (": @unchecked Sendable").toList) <:+:
      pyStrip (replaceAll name (name ++ (": @unchecked Sendable").toList) line) := by
  have htokgo : (name ++ (": @unchecked Sendable").toList) <:+:
      replaceAllGo name (name ++ (": @unchecked Sendable").toList) line 0 :=
    replaceAllGo_rep_infix name _ hword.1 line hnameinf
  obtain ⟨a, n2, hname⟩ : ∃ a n2, name = a :: n2 := by
    cases name with
    | nil => exact absurd rfl hword.1
    | cons a n2 => exact ⟨a, n2, rfl⟩
  have htokhead : ∀ c ∈ (name ++ (": @unchecked Sendable").toList).head?,
      pyIsSpace c = false := by
    intro c hc
    rw [hname] at hc
    have hac : a = c := by simpa using hc
    exact hac ▸ wordChar_not_space a (hword.2 a (by rw [hname]; simp))
  have htoklast : ∀ c ∈ (name ++ (": @unchecked Sendable").toList).getLast?,
      pyIsSpace c = false := by
    intro c hc
    rw [List.getLast?_append] at hc
    have : c = 'e' := by
      have h2 : ((": @unchecked Sendable").toList.getLast?).or name.getLast? = some 'e' := by
        rw [show (": @unchecked Sendable").toList.getLast? = some 'e' from by decide]
        rfl
      rw [h2] at hc
      simpa using hc.symm
    subst this
    decide
  have hstr : (name ++ (": @unchecked Sendable").toList) <:+:
      pyStrip (replaceAll name (name ++ (": @unchecked Sendable").toList) line) :=
    infix_pyStrip _ htokhead htoklast (by simp [hword.1]) htokgo
  refine ⟨((List.prefix_append name _).isInfix).trans hstr, ?_, hstr⟩
  have hsub : ("@unchecked Sendable").toList <:+:
      name ++ (": @unchecked Sendable").toList :=
    ⟨name ++ (": ").toList, [], by simp⟩
  exact infix_pyStrip _ annot_head_last.1 annot_head_last.2 (by decide) (hsub.trans htokgo)

/-- C9, amended: for a class-declaration line in a file containing an
async-context keyword and no safety annotation anywhere, the
concurrency-safety fix's replacement contains the original type name and
adds the `@unchecked Sendable` token, which was not present in the
original line; when the line contains no colon the annotation is appended
directly after the type name (`Name: @unchecked Sendable` appears), and
when the line contains a colon the token `: @unchecked Sendable,` is
inserted at every colon (in particular it appears in the replacement). -/
theorem claim9_theorem (issue : Issue) (content : List Char) (name : List Char)
    (h : issue.line - 1 < (pyReadlines content).length)
    (hcls : classMatchLine ((pyReadlines content).get ⟨issue.line - 1, h⟩) = some name)
    (hasync : containsSub content (("Task").toList) = true ∨
      containsSub content (("async").toList) = true)
    (hnosend : containsSub content ((": Sendable").toList) = false)
    (hnounch : containsSub content (("@unchecked Sendable").toList) = false) :
    ∃ rec r, fix_sendable_conformance issue content = Except.ok rec ∧
      rec.replacement = some r ∧
      name <:+: r ∧
      ("@unchecked Sendable").toList <:+: r ∧
      ¬ ("@unchecked Sendable").toList <:+: ((pyReadlines content).get ⟨issue.line - 1, h⟩) ∧
      (((pyReadlines content).get ⟨issue.line - 1, h⟩).contains ':' = false →
        (name ++ (": @unchecked Sendable").toList) <:+: r) ∧
      (((pyReadlines content).get ⟨issue.line - 1, h⟩).contains ':' = true →
        (": @unchecked Sendable,").toList <:+: r) := by
  have key : fix_sendable_conformance issue content = Except.ok
      { file := issue.file, line := issue.line - 1 + 1,
        original := pyStrip ((pyReadlines content).get ⟨issue.line - 1, h⟩),
        replacement := some (pyStrip
          (if ((pyReadlines content).get ⟨issue.line - 1, h⟩).contains ':' then
            replaceAll [':'] ((": @unchecked Sendable,").toList)
              ((pyReadlines content).get ⟨issue.line - 1, h⟩)
          else
            replaceAll name (name ++ (": @unchecked Sendable").toList)
              ((pyReadlines content).get ⟨issue.line - 1, h⟩))),
        message := "Add @unchecked Sendable conformance to ".toList ++ name } := by
    simp only [fix_sendable_conformance]
    rw [dif_pos h, hcls]
  have hword := classMatchLine_word _ name hcls
  have hnameinf := classMatchLine_infix _ name hcls
  have hnotline : ¬ ("@unchecked Sendable").toList <:+:
      ((pyReadlines content).get ⟨issue.line - 1, h⟩) := by
    intro hinf
    have hlinemem : ((pyReadlines content).get ⟨issue.line - 1, h⟩) ∈ pyReadlines content :=
      List.get_mem (pyReadlines content) _ h
    have : ("@unchecked Sendable").toList <:+: content :=
      hinf.trans (infix_of_mem_pyReadlines hlinemem)
    rw [← containsSub_iff content (("@unchecked Sendable").toList)] at this
    rw [hnounch] at this
    exact absurd this (by simp)
  by_cases hcolon : ((pyReadlines content).get ⟨issue.line - 1, h⟩).contains ':'
  · rw [if_pos hcolon] at key
    obtain ⟨hn, ha, ht⟩ := sendable_colon_case _ name hword hnameinf hcolon
    exact ⟨_, _, key, rfl, hn, ha, hnotline,
      fun hfalse => absurd hcolon (by rw [hfalse]; simp),
      fun _ => ht⟩
  · rw [if_neg hcolon] at key
    obtain ⟨hn, ha, ht⟩ := sendable_nocolon_case _ name hword hnameinf
    exact ⟨_, _, key, rfl, hn, ha, hnotline,
      fun _ => ht,
      fun htrue => absurd htrue hcolon⟩

/-- C9 witness: a colon-free class declaration line `class Foo` in a file
that uses `Task`, with no safety annotation anywhere. -/
theorem claim9_witness :
    ∃ rec r, fix_sendable_conformance
        { file := "test.swift", line := 1, type := "sendable_conformance",
          message := [], suggestion := [] } ("class Foo\nTask \x7b\n").toList =
        Except.ok rec ∧
      rec.replacement = some r ∧
      ("Foo").toList <:+: r ∧
      ("@unchecked Sendable").toList <:+: r ∧
      ¬ ("@unchecked Sendable").toList <:+:
        ((pyReadlines ("class Foo\nTask \x7b\n").toList).get ⟨0, by decide⟩) ∧
      (((pyReadlines ("class Foo\nTask \x7b\n").toList).get ⟨0, by decide⟩).contains ':' = false →
        (("Foo").toList ++ (": @unchecked Sendable").toList) <:+: r) ∧
      (((pyReadlines ("class Foo\nTask \x7b\n").toList).get ⟨0, by decide⟩).contains ':' = true →
        (": @unchecked Sendable,").toList <:+: r) :=
  claim9_theorem _ ("class Foo\nTask \x7b\n").toList ("Foo").toList (by decide) (by decide)
    (Or.inl (by decide)) (by decide) (by decide)

/-! ### Support lemmas for the structural-idiom idempotence theorem -/

theorem validLines_clean (ls : List (List Char)) (h : validLines ls) :
    ∀ l ∈ ls, cleanLn l := by
  induction ls with
  | nil => simp
  | cons l rest ih =>
    intro x hx
    rcases List.mem_cons.mp hx with hx | hx
    · subst hx
      cases rest with
      | nil => exact h
      | cons l2 rest2 => exact h.1.1
    · exact ih (validLines_tail h) x hx

theorem vstackLineMatch_containsSub (l : List Char) (h : vstackLineMatch l = true) :
    containsSub l vsLit = true := by
  induction l with
  | nil => simp [vstackLineMatch] at h
  | cons c t ih =>
    rw [vstackLineMatch] at h
    rw [containsSub]
    rcases Bool.or_eq_true_iff.mp h with h1 | h1
    · rw [Bool.and_eq_true] at h1
      simp [h1.1]
    · simp [ih h1]

theorem containsSub_mem_V (l : List Char) (h : containsSub l vsLit = true) : 'V' ∈ l := by
  rw [containsSub_iff] at h
  exact h.subset (by decide)

theorem takeWhile_ws_no_nl (line : List Char) (hclean : cleanLn line)
    (hV : 'V' ∈ line) : ∀ c ∈ line.takeWhile pyIsSpace, c ≠ '\n' := by
  intro c hc hcnl
  subst hcnl
  obtain ⟨rest, hrest⟩ :=
    (List.takeWhile_prefix pyIsSpace : line.takeWhile pyIsSpace <+: line)
  cases rest with
  | nil =>
    have hlineeq : line.takeWhile pyIsSpace = line := by simpa using hrest
    have : pyIsSpace 'V' = true := List.mem_takeWhile_imp (by rw [hlineeq]; exact hV)
    exact absurd this (by decide)
  | cons d rest2 =>
    have hdl : line.dropLast = line.takeWhile pyIsSpace ++ (d :: rest2).dropLast := by
      conv_lhs => rw [← hrest]
      rw [List.dropLast_append_cons]
    have hmem : '\n' ∈ line.dropLast := by
      rw [hdl]
      exact List.mem_append_left _ hc
    exact absurd rfl (hclean.2 '\n' hmem)

theorem spacingSearch_digits (l : List Char) :
    ∀ ds, spacingSearch l = some ds → ∀ c ∈ ds, Char.isDigit c = true := by
  induction l with
  | nil => intro ds h; simp [spacingSearch] at h
  | cons c t ih =>
    intro ds h
    rw [spacingSearch] at h
    by_cases hpre : "spacing:".toList.isPrefixOf (c :: t)
    · rw [if_pos hpre] at h
      by_cases hds : (((c :: t).drop 8).dropWhile pyIsSpace).takeWhile Char.isDigit ≠ []
      · rw [if_pos hds] at h
        cases Option.some.inj h
        exact fun d hd => List.mem_takeWhile_imp hd
      · rw [if_neg hds] at h
        exact ih ds h
    · rw [if_neg hpre] at h
      exact ih ds h

theorem spacing_no_nl (l : List Char) :
    ∀ c ∈ ((spacingSearch l).getD ("20").toList), c ≠ '\n' := by
  cases hs : spacingSearch l with
  | none =>
    intro c hc
    simp only [Option.getD_none] at hc
    have h20 : ∀ c ∈ ("20").toList, c ≠ '\n' := by decide
    exact h20 c hc
  | some ds =>
    intro c hc
    simp only [Option.getD_some] at hc
    have := spacingSearch_digits l ds hs c hc
    intro hnl
    subst hnl
    exact absurd this (by decide)

theorem rstrip_concat_nl (B : List Char) :
    ((B ++ [')'] ++ ['\n']).reverse.dropWhile pyIsSpace).reverse = B ++ [')'] := by
  rw [show (B ++ [')'] ++ ['\n']).reverse = '\n' :: ')' :: B.reverse by simp]
  rw [List.dropWhile_cons_of_pos (by decide), List.dropWhile_cons_of_neg (by decide)]
  simp

theorem dropWhile_ws_vstack (X : List Char) :
    (("VStack \x7b\n").toList ++ X).dropWhile pyIsSpace = ("VStack \x7b\n").toList ++ X := by
  rw [show ("VStack \x7b\n").toList ++ X = 'V' :: (("Stack \x7b\n").toList ++ X) from rfl]
  rw [List.dropWhile_cons_of_neg (by decide)]

/-- Stripping the assembled structural-idiom replacement: the leading
indent (all whitespace) is removed, the trailing newline is removed, and
everything between stays. -/
theorem pyStrip_vstack_replacement (indent mid sp : List Char)
    (hws : ∀ c ∈ indent, pyIsSpace c = true) :
    pyStrip (indent ++ ("VStack \x7b\n").toList ++ indent ++ mid ++ sp ++ (")\n").toList) =
      ("VStack \x7b\n").toList ++ indent ++ mid ++ sp ++ [')'] := by
  have harg : indent ++ ("VStack \x7b\n").toList ++ indent ++ mid ++ sp ++ (")\n").toList =
      indent ++ (("VStack \x7b\n").toList ++ (indent ++ mid ++ sp ++ (")\n").toList)) := by
    simp
  rw [pyStrip, harg, List.dropWhile_append_of_pos hws, dropWhile_ws_vstack]
  have harg2 : ("VStack \x7b\n").toList ++ (indent ++ mid ++ sp ++ (")\n").toList) =
      (("VStack \x7b\n").toList ++ indent ++ mid ++ sp) ++ [')'] ++ ['\n'] := by
    rw [show ((")\n") : String).toList = [')'] ++ ['\n'] from rfl]
    simp
  rw [harg2, rstrip_concat_nl]

/-- The two physical lines of the written structural-idiom replacement. -/
theorem pyReadlines_vstack_mid (indent mid sp : List Char)
    (hind : ∀ c ∈ indent, c ≠ '\n') (hmid : ∀ c ∈ mid, c ≠ '\n')
    (hsp : ∀ c ∈ sp, c ≠ '\n') :
    pyReadlines (("VStack \x7b\n").toList ++ indent ++ mid ++ sp ++ [')'] ++ ['\n']) =
      [("VStack \x7b\n").toList, indent ++ mid ++ sp ++ [')', '\n']] := by
  have h1 : ("VStack \x7b\n").toList ++ indent ++ mid ++ sp ++ [')'] ++ ['\n'] =
      ("VStack \x7b\n").toList ++ (indent ++ mid ++ sp ++ [')', '\n']) := by
    simp
  rw [h1, pyReadlines_closed_append _ _ (by constructor; constructor; decide; decide; decide)]
  rw [pyReadlines_clean (indent ++ mid ++ sp ++ [')', '\n'])]
  refine ⟨by simp, ?_⟩
  have h2 : (indent ++ mid ++ sp ++ [')', '\n']).dropLast =
      indent ++ mid ++ sp ++ [')'] := by
    rw [show indent ++ mid ++ sp ++ ([')', '\n'] : List Char) =
      (indent ++ mid ++ sp ++ [')']) ++ ['\n'] by simp]
    rw [List.dropLast_concat]
  rw [h2]
  intro c hc
  rcases List.mem_append.mp hc with hc | hc
  · rcases List.mem_append.mp hc with hc | hc
    · rcases List.mem_append.mp hc with hc | hc
      · exact hind c hc
      · exact hmid c hc
    · exact hsp c hc
  · intro hcn
    subst hcn
    simp at hc

/-- C2, amended: for a structural-idiom issue triggered by the
`VStack(spacing:` rule, applying the synthesized fix and re-running
`detect` on the result does not re-report a VStack-spacing issue at the
fixed line (the rewritten first line `VStack {` no longer matches the
pattern).  This is the only case of the claim that holds: for a
Text-interpolation structural-idiom issue the fixer's ternary regex can
fail on the detected line, leaving no replacement, so applying the fix
changes nothing and the identical issue is re-reported; and for
deprecated-API fixes the fix applies the first fix-table pattern matching
the line, which may differ from the detection pattern that reported the
issue, so the same issue can be re-reported at the same location (both in
the counterexample). -/
theorem claim2_theorem (issue : Issue) (content : List Char)
    (h : issue.line - 1 < (pyReadlines content).length) (hge : 1 ≤ issue.line)
    (hvs : vstackLineMatch ((pyReadlines content).get ⟨issue.line - 1, h⟩) = true) :
    ∃ rec r out status,
      fix_build_expression issue content = Except.ok rec ∧
      rec.replacement = some r ∧
      apply_fix rec content = Except.ok (out, status) ∧
      ∀ i ∈ check_build_expression issue.file out,
        i.message = ("Potential buildExpression issue with VStack spacing parameter").toList →
          i.line ≠ issue.line := by
  have hcontains := vstackLineMatch_containsSub _ hvs
  have hV := containsSub_mem_V _ hcontains
  have hclean : cleanLn ((pyReadlines content).get ⟨issue.line - 1, h⟩) :=
    validLines_clean _ (validLines_pyReadlines content) _
      (List.get_mem (pyReadlines content) _ h)
  have hindnl := takeWhile_ws_no_nl _ hclean hV
  have hindws : ∀ c ∈ ((pyReadlines content).get ⟨issue.line - 1, h⟩).takeWhile pyIsSpace,
      pyIsSpace c = true := fun c hc => List.mem_takeWhile_imp hc
  have hspnl := spacing_no_nl ((pyReadlines content).get ⟨issue.line - 1, h⟩)
  have key : fix_build_expression issue content = Except.ok
      { file := issue.file, line := issue.line - 1 + 1,
        original := pyStrip ((pyReadlines content).get ⟨issue.line - 1, h⟩),
        replacement := some (pyStrip
          (((pyReadlines content).get ⟨issue.line - 1, h⟩).takeWhile pyIsSpace ++
            ("VStack \x7b\n").toList ++
            ((pyReadlines content).get ⟨issue.line - 1, h⟩).takeWhile pyIsSpace ++
            ("    Spacer().frame(height: ").toList ++
            ((spacingSearch ((pyReadlines content).get ⟨issue.line - 1, h⟩)).getD
              ("20").toList) ++ (")\n").toList)),
        message := "Replace VStack(spacing: ".toList ++
          ((spacingSearch ((pyReadlines content).get ⟨issue.line - 1, h⟩)).getD
            ("20").toList) ++ ") with VStack and explicit Spacer".toList } := by
    simp only [fix_build_expression]
    rw [dif_pos h, if_pos hcontains]
  have hr := pyStrip_vstack_replacement
    (((pyReadlines content).get ⟨issue.line - 1, h⟩).takeWhile pyIsSpace)
    (("    Spacer().frame(height: ").toList)
    ((spacingSearch ((pyReadlines content).get ⟨issue.line - 1, h⟩)).getD ("20").toList)
    hindws
  refine ⟨_, _, (((pyReadlines content).set (issue.line - 1)
      ((pyStrip
          (((pyReadlines content).get ⟨issue.line - 1, h⟩).takeWhile pyIsSpace ++
            ("VStack \x7b\n").toList ++
            ((pyReadlines content).get ⟨issue.line - 1, h⟩).takeWhile pyIsSpace ++
            ("    Spacer().frame(height: ").toList ++
            ((spacingSearch ((pyReadlines content).get ⟨issue.line - 1, h⟩)).getD
              ("20").toList) ++ (")\n").toList)) ++ ['\n']))).flatten,
    "Applied fix to " ++ issue.file ++ " line " ++ toString (issue.line - 1 + 1),
    key, rfl, ?_, ?_⟩
  · simp only [apply_fix]
    rw [if_pos (by simpa using h)]
    rfl
  · intro i hi hmsg heq
    have hmainlines : pyReadlines ((((pyReadlines content).set (issue.line - 1)
        ((pyStrip
          (((pyReadlines content).get ⟨issue.line - 1, h⟩).takeWhile pyIsSpace ++
            ("VStack \x7b\n").toList ++
            ((pyReadlines content).get ⟨issue.line - 1, h⟩).takeWhile pyIsSpace ++
            ("    Spacer().frame(height: ").toList ++
            ((spacingSearch ((pyReadlines content).get ⟨issue.line - 1, h⟩)).getD
              ("20").toList) ++ (")\n").toList)) ++ ['\n']))).flatten) =
        (pyReadlines content).take (issue.line - 1) ++
          [("VStack \x7b\n").toList,
           ((pyReadlines content).get ⟨issue.line - 1, h⟩).takeWhile pyIsSpace ++
             ("    Spacer().frame(height: ").toList ++
             ((spacingSearch ((pyReadlines content).get ⟨issue.line - 1, h⟩)).getD
               ("20").toList) ++ [')', '\n']] ++
          (pyReadlines content).drop (issue.line - 1 + 1) := by
      rw [pyReadlines_set_flatten content _ (issue.line - 1) h, hr]
      rw [show (("VStack \x7b\n").toList ++
          ((pyReadlines content).get ⟨issue.line - 1, h⟩).takeWhile pyIsSpace ++
          ("    Spacer().frame(height: ").toList ++
          ((spacingSearch ((pyReadlines content).get ⟨issue.line - 1, h⟩)).getD
            ("20").toList) ++ [')']) ++ ['\n'] =
        ("VStack \x7b\n").toList ++
          ((pyReadlines content).get ⟨issue.line - 1, h⟩).takeWhile pyIsSpace ++
          ("    Spacer().frame(height: ").toList ++
          ((spacingSearch ((pyReadlines content).get ⟨issue.line - 1, h⟩)).getD
            ("20").toList) ++ [')'] ++ ['\n'] by simp]
      rw [pyReadlines_vstack_mid _ _ _ hindnl (by decide) hspnl]
    simp only [check_build_expression] at hi
    rcases List.mem_append.mp hi with hi | hi
    · obtain ⟨k, hk, hfk⟩ := List.mem_filterMap.mp hi
      by_cases hmk : vstackLineMatch ((pyReadlines ((((pyReadlines content).set
          (issue.line - 1) ((pyStrip
          (((pyReadlines content).get ⟨issue.line - 1, h⟩).takeWhile pyIsSpace ++
            ("VStack \x7b\n").toList ++
            ((pyReadlines content).get ⟨issue.line - 1, h⟩).takeWhile pyIsSpace ++
            ("    Spacer().frame(height: ").toList ++
            ((spacingSearch ((pyReadlines content).get ⟨issue.line - 1, h⟩)).getD
              ("20").toList) ++ (")\n").toList)) ++ ['\n']))).flatten)).getD k [])
      · rw [if_pos hmk] at hfk
        have hil : i.line = k + 1 := by
          cases Option.some.inj hfk
          rfl
        have hkval : k = issue.line - 1 := by omega
        subst hkval
        rw [hmainlines] at hmk
        have hTlen : ((pyReadlines content).take (issue.line - 1)).length =
            issue.line - 1 := by
          rw [List.length_take]
          omega
        have hgetd : ((pyReadlines content).take (issue.line - 1) ++
            ([("VStack \x7b\n").toList,
              ((pyReadlines content).get ⟨issue.line - 1, h⟩).takeWhile pyIsSpace ++
                ("    Spacer().frame(height: ").toList ++
                ((spacingSearch ((pyReadlines content).get ⟨issue.line - 1, h⟩)).getD
                  ("20").toList) ++ [')', '\n']] ++
              (pyReadlines content).drop (issue.line - 1 + 1))).getD (issue.line - 1) [] =
            ("VStack \x7b\n").toList := by
          rw [List.getD_eq_getElem?_getD, List.getElem?_append_right (by omega)]
          rw [show issue.line - 1 - ((pyReadlines content).take (issue.line - 1)).length =
            0 by omega]
          rfl
        rw [List.append_assoc] at hmk
        rw [hgetd] at hmk
        exact absurd hmk (by decide)
      · rw [if_neg hmk] at hfk
        exact absurd hfk (by simp)
    · obtain ⟨k, hk, hfk⟩ := List.mem_filterMap.mp hi
      by_cases hmk : textLineMatch ((pyReadlines ((((pyReadlines content).set
          (issue.line - 1) ((pyStrip
          (((pyReadlines content).get ⟨issue.line - 1, h⟩).takeWhile pyIsSpace ++
            ("VStack \x7b\n").toList ++
            ((pyReadlines content).get ⟨issue.line - 1, h⟩).takeWhile pyIsSpace ++
            ("    Spacer().frame(height: ").toList ++
            ((spacingSearch ((pyReadlines content).get ⟨issue.line - 1, h⟩)).getD
              ("20").toList) ++ (")\n").toList)) ++ ['\n']))).flatten)).getD k [])
      · rw [if_pos hmk] at hfk
        have : i.message = ("Potential buildExpression issue with conditional expression in Text interpolation").toList := by
          cases Option.some.inj hfk
          rfl
        rw [this] at hmsg
        exact absurd hmsg (by decide)
      · rw [if_neg hmk] at hfk
        exact absurd hfk (by simp)

/-- Witness for C2: the amended idempotence theorem instantiated at the
spec's concrete ten-line scenario file and its VStack-spacing issue. -/
theorem claim2_witness :
    (5 : Nat) - 1 < (pyReadlines c1Content).length ∧
    1 ≤ c1Issue.line ∧
    ∃ rec r out status,
      fix_build_expression c1Issue c1Content = Except.ok rec ∧
      rec.replacement = some r ∧
      apply_fix rec c1Content = Except.ok (out, status) ∧
      ∀ i ∈ check_build_expression c1Issue.file out,
        i.message = ("Potential buildExpression issue with VStack spacing parameter").toList →
          i.line ≠ c1Issue.line :=
  ⟨by decide, by decide,
   claim2_theorem c1Issue c1Content (by decide) (by decide) (by decide)⟩
